import Mathlib

/-!
Verification of the hybrid retrieval & ranking engine and the agent
conversation orchestrator of the `llm_docs` repository, as a shallow
embedding in Lean 4.

Sources embedded here:
* `app/interactors/documents/search.py` (`SearchDocumentsInteractor`):
  query tokenisation, lexical-relevance filtering, per-document grouping
  and the final similarity sort.
* `app/utils/tools/documents.py` (`search_documents` tool): gateway query
  construction, per-document chunk grouping, formatting and
  catch-all error handling.
* `app/interactors/chat/generate.py` (`GenerateAnswerInteractor.execute`
  and `.execute_stream`): the Ollama Thinking/Acting loops, tool-call
  records, tool-output truncation and source extraction.
* `app/interactors/chat/openai_generate.py` (`OpenAIGenerateInteractor`):
  the OpenAI non-streaming round and the streaming loop.

Python `str` is modelled as Lean `String` (a sequence of code points, as
in CPython), Python `float` as `ℚ`, Python lists as `List`, Python dicts
with insertion order as association lists built in first-seen key order.
Python's stable `list.sort(key=..)` is modelled by `List.insertionSort`
with the corresponding (total, transitive) relation, which is stable and
therefore has the same semantics.
-/

/-! ### Python string primitives -/

/-- Python `str.lower()` (per code point, as `Char.toLower`). -/
def pyLower (s : String) : String := String.mk (s.data.map Char.toLower)

/-- `pat` is a prefix of `s` (on code-point lists). -/
def strStartsList : List Char → List Char → Bool
  | [], _ => true
  | _ :: _, [] => false
  | a :: ps, b :: ss => a == b && strStartsList ps ss

/-- `pat` occurs as a contiguous substring of `s` (on code-point lists);
this is Python's `pat in s`. -/
def strSubList (pat : List Char) : List Char → Bool
  | [] => pat.isEmpty
  | b :: ss => strStartsList pat (b :: ss) || strSubList pat ss

/-- Python `pat in s` for strings. -/
def strContainsB (s pat : String) : Bool := strSubList pat.data s.data

/-- Worker for `str.split()`: walk the code points, accumulating the
current (reversed) word, emitting it at each whitespace run. -/
def splitWsAux : List Char → List Char → List String
  | [], acc => if acc.isEmpty then [] else [String.mk acc.reverse]
  | c :: cs, acc =>
    if c.isWhitespace then
      (if acc.isEmpty then [] else [String.mk acc.reverse]) ++ splitWsAux cs []
    else splitWsAux cs (c :: acc)

/-- Python `str.split()` with no argument: split on whitespace runs,
discarding empty pieces. -/
def pySplitWs (s : String) : List String := splitWsAux s.data []

/-- Rational division, computed on numerators and denominators so that
the kernel can evaluate it (`ratDiv_eq_div` shows it is `/` on `ℚ`);
used wherever the Python source divides two floats. -/
def ratDiv (a b : ℚ) : ℚ :=
  if b.num < 0 then mkRat (-(a.num * (b.den : Int))) (a.den * b.num.natAbs)
  else mkRat (a.num * (b.den : Int)) (a.den * b.num.natAbs)

/-- `search.py`: `[word.lower().strip() for word in query.split() if
len(word.strip()) > 2]`.  Tokens produced by `split()` carry no
whitespace, so `strip()` is the identity on them. -/
def queryWords (q : String) : List String :=
  (pySplitWs q).filterMap (fun w => if w.length > 2 then some (pyLower w) else none)

/-! ### Data model of a search match (`search.py`, `execute` step 3)

Only the fields that the ranking pipeline reads are carried: the
`matches` dicts also hold display-only fields (`chunk` preview,
`chunk_length`, `created_at`, debug counters) that no verified property
references. -/

structure MatchRec where
  document_id : String
  full_chunk : String
  similarity : ℚ
  chunk_index : Int
  /-- Python: the `text_relevance_score` key, absent (`none`) until
  `_filter_by_text_relevance` assigns it. -/
  text_relevance_score : Option ℚ := none
deriving DecidableEq

/-- Number of query words occurring in the (already lowered) chunk text:
`sum(1 for word in query_words if word in chunk_text)`. -/
def lexCount (qws : List String) (chunkLower : String) : Nat :=
  (qws.filter (fun w => strContainsB chunkLower w)).length

/-- Body of the `for match in matches` loop of
`_filter_by_text_relevance`: keep a chunk with a fresh
`text_relevance_score` when it has a lexical match or similarity above
0.8, drop it otherwise. -/
def assignScore (qws : List String) (m : MatchRec) : Option MatchRec :=
  let chunkLower := pyLower m.full_chunk
  let score : ℚ := ratDiv (lexCount qws chunkLower : ℚ) (qws.length : ℚ)
  if qws.any (fun w => strContainsB chunkLower w) then
    some { m with text_relevance_score := some score }
  else if m.similarity > mkRat 4 5 then
    some { m with text_relevance_score := some (mkRat 1 10) }
  else none

/-- Sort key of `_filter_by_text_relevance`:
`(x.get("text_relevance_score", 0), x["similarity"])`. -/
def relKey (m : MatchRec) : ℚ × ℚ := (m.text_relevance_score.getD 0, m.similarity)

/-- Lexicographic `≤` on pairs of rationals (Python tuple comparison). -/
def pairKeyLe (a b : ℚ × ℚ) : Prop := a.1 < b.1 ∨ (a.1 = b.1 ∧ a.2 ≤ b.2)

instance : DecidableRel pairKeyLe := by
  intro a b; unfold pairKeyLe; infer_instance

/-- `sort(key=.., reverse=True)`: `a` may precede `b` iff `b`'s key is
`≤` `a`'s key; a stable sort with this relation is exactly CPython's
stable descending sort. -/
def scoreRel (a b : MatchRec) : Prop := pairKeyLe (relKey b) (relKey a)

instance : DecidableRel scoreRel := by
  intro a b; unfold scoreRel; infer_instance

instance pairKeyLeTotalInst : IsTotal (ℚ × ℚ) pairKeyLe := by
  constructor
  intro a b
  unfold pairKeyLe
  rcases lt_trichotomy a.1 b.1 with h | h | h
  · exact Or.inl (Or.inl h)
  · rcases le_total a.2 b.2 with h2 | h2
    · exact Or.inl (Or.inr ⟨h, h2⟩)
    · exact Or.inr (Or.inr ⟨h.symm, h2⟩)
  · exact Or.inr (Or.inl h)

instance pairKeyLeTransInst : IsTrans (ℚ × ℚ) pairKeyLe := by
  constructor
  intro a b c h1 h2
  unfold pairKeyLe at *
  rcases h1 with h1 | ⟨h1e, h1le⟩
  · rcases h2 with h2 | ⟨h2e, _⟩
    · exact Or.inl (h1.trans h2)
    · exact Or.inl (h2e ▸ h1)
  · rcases h2 with h2 | ⟨h2e, h2le⟩
    · exact Or.inl (h1e ▸ h2)
    · exact Or.inr ⟨h1e.trans h2e, h1le.trans h2le⟩

instance : IsTotal MatchRec scoreRel :=
  ⟨fun a b => pairKeyLeTotalInst.total (relKey b) (relKey a)⟩

instance : IsTrans MatchRec scoreRel :=
  ⟨fun _ _ _ h1 h2 => pairKeyLeTransInst.trans _ _ _ h2 h1⟩

/-- `_filter_by_text_relevance(matches, query)`, faithful to the early
returns for an empty query / empty match list / no usable query words. -/
def filterByTextRelevance (matchList : List MatchRec) (query : String) : List MatchRec :=
  if query = "" ∨ matchList = [] then matchList
  else if queryWords query = [] then matchList
  else List.insertionSort scoreRel (matchList.filterMap (assignScore (queryWords query)))

/-! ### `_sort_results_optimally` (grouping and the final sort)

The Python code groups the filtered matches into an insertion-ordered
dict keyed by `document_id`.  A dict built that way is exactly: the keys
in first-seen order, each mapped to the sublist of matches having that
key.  `firstKeys` computes first-seen key order. -/

def firstKeys : List String → List String
  | [] => []
  | k :: rest => k :: (firstKeys rest).filter (fun d => d != k)

/-- Keys of `documents_groups` in insertion order. -/
def docKeys (l : List MatchRec) : List String := firstKeys (l.map (·.document_id))

/-- Within-document sort: `documents_groups[doc_id].sort(key=lambda x:
x["chunk_index"])` (ascending, stable). -/
def chunkIdxRel (a b : MatchRec) : Prop := a.chunk_index ≤ b.chunk_index

instance : DecidableRel chunkIdxRel := by
  intro a b; unfold chunkIdxRel; infer_instance

instance : IsTotal MatchRec chunkIdxRel := ⟨fun a b => le_total a.chunk_index b.chunk_index⟩

instance : IsTrans MatchRec chunkIdxRel := ⟨fun _ _ _ h1 h2 => le_trans h1 h2⟩

/-- The group of a document id: its matches in filtered order, sorted by
chunk index. -/
def docGroup (l : List MatchRec) (d : String) : List MatchRec :=
  List.insertionSort chunkIdxRel (l.filter (fun m => m.document_id == d))

/-- Python `max(chunk["similarity"] for chunk in chunks)` (the chunk
lists this is applied to are never empty; `0` is a junk value for `[]`). -/
def simMax : List MatchRec → ℚ
  | [] => 0
  | m :: ms => ms.foldl (fun a x => max a x.similarity) m.similarity

/-- `doc_similarities[doc_id]`: maximum similarity among the document's
retained chunks. -/
def docSim (l : List MatchRec) (d : String) : ℚ := simMax (docGroup l d)

/-- `sorted(documents_groups.keys(), key=.., reverse=True)`. -/
def docSimRel (f : String → ℚ) (d e : String) : Prop := f e ≤ f d

instance (f : String → ℚ) : DecidableRel (docSimRel f) := by
  intro a b; unfold docSimRel; infer_instance

instance (f : String → ℚ) : IsTotal String (docSimRel f) :=
  ⟨fun a b => le_total (f b) (f a)⟩

instance (f : String → ℚ) : IsTrans String (docSimRel f) :=
  ⟨fun _ _ _ h1 h2 => le_trans h2 h1⟩

/-- `_sort_results_optimally(matches, query)`: filter by lexical
relevance, group by document, sort chunks inside each document by chunk
index, sort the documents by maximum similarity descending, and
concatenate the groups in that order. -/
def sortResultsOptimally (matchList : List MatchRec) (query : String) : List MatchRec :=
  if matchList = [] then matchList
  else
    let filtered := filterByTextRelevance matchList query
    let ids := List.insertionSort (docSimRel (docSim filtered)) (docKeys filtered)
    (ids.map (docGroup filtered)).flatten

/-- Maximum similarity of a document across its chunks in a result list
(the quantity claim C3 ranks by). -/
def docMaxSim (l : List MatchRec) (d : String) : ℚ :=
  simMax (l.filter (fun m => m.document_id == d))

/-- Concrete matches used to witness C3. -/
def c3DemoMatches : List MatchRec :=
  [⟨"A", "alpha beta", mkRat 9 10, 1, none⟩, ⟨"B", "alpha", mkRat 1 2, 0, none⟩]

/-- `match["text_relevance_score"] = s` (dict update on a match). -/
def setScore (m : MatchRec) (s : ℚ) : MatchRec :=
  { m with text_relevance_score := some s }

/-- Concrete match used to witness C6. -/
def c6DemoMatch : MatchRec := ⟨"A", "Hello World", mkRat 1 2, 0, none⟩

/-! ### Python values and printers (for tool outputs)

`PyVal` models the Python values that flow through tool outputs:
`TextContent` pydantic objects, dicts, lists, strings, numbers, `None`.
`pyToString` models `str(...)`/`repr(...)` closely enough for the
orchestrator, whose behaviour never inspects the printed text. -/

inductive PyVal where
  | textContent (ty : String) (text : String)
  | pyDict (entries : List (String × PyVal))
  | pyList (elems : List PyVal)
  | pyStr (s : String)
  | pyNum (q : ℚ)
  | pyNone

/-- Decimal printer for a rational (stands in for Python float repr). -/
def ratToStr (q : ℚ) : String :=
  toString q.num ++ (if q.den == 1 then "" else "/" ++ toString q.den)

mutual

def pyToString : PyVal → String
  | .textContent ty tx =>
      "TextContent(type=\x27" ++ ty ++ "\x27, text=\x27" ++ tx ++ "\x27)"
  | .pyDict es => "\x7b" ++ entriesToString es ++ "\x7d"
  | .pyList xs => "[" ++ pyListToString xs ++ "]"
  | .pyStr s => s
  | .pyNum q => ratToStr q
  | .pyNone => "None"

def pyListToString : List PyVal → String
  | [] => ""
  | [x] => pyToString x
  | x :: y :: xs => pyToString x ++ ", " ++ pyListToString (y :: xs)

def entriesToString : List (String × PyVal) → String
  | [] => ""
  | [(k, v)] => "\x27" ++ k ++ "\x27: " ++ pyToString v
  | (k, v) :: e :: es =>
      "\x27" ++ k ++ "\x27: " ++ pyToString v ++ ", " ++ entriesToString (e :: es)

end

/-- Python dict lookup `d.get(k)` (first binding wins; the dicts built by
the modelled code never bind a key twice). -/
def dictGet (es : List (String × PyVal)) (k : String) : Option PyVal :=
  (es.find? (fun e => e.1 == k)).map (fun e => e.2)

/-- Python truthiness for the values above. -/
def pyTruthy : PyVal → Bool
  | .textContent _ _ => true
  | .pyDict es => !es.isEmpty
  | .pyList xs => !xs.isEmpty
  | .pyStr s => s != ""
  | .pyNum q => q.num != 0
  | .pyNone => false

/-! ### Number formatting used by the tool output -/

/-- Round-half-to-even of `q * 1000` as an integer, computed on
numerator/denominator (Python `round(x, 3)` / `f"{x:.3f}"` rounding on
exact values). -/
def rndHalfEven1000 (q : ℚ) : Int :=
  let n : Int := q.num * 1000
  let d : Int := (q.den : Int)
  let f : Int := Int.fdiv n d
  let r : Int := n - f * d
  if 2 * r < d then f
  else if 2 * r > d then f + 1
  else if f % 2 = 0 then f else f + 1

/-- Python `round(x, 3)`. -/
def round3 (q : ℚ) : ℚ := mkRat (rndHalfEven1000 q) 1000

def pad3 (m : Nat) : String :=
  if m < 10 then "00" ++ toString m
  else if m < 100 then "0" ++ toString m
  else toString m

/-- Python `f"\x7bx:.3f\x7d"`. -/
def fmt3 (q : ℚ) : String :=
  let n := rndHalfEven1000 q
  let sign := if n < 0 then "-" else ""
  let a := n.natAbs
  sign ++ toString (a / 1000) ++ "." ++ pad3 (a % 1000)

/-- Insert thousands separators into a reversed digit string. -/
def commaGroups : List Char → List Char
  | a :: b :: c :: d :: rest => a :: b :: c :: ',' :: commaGroups (d :: rest)
  | l => l

/-- Python `f"\x7bn:,\x7d"`. -/
def fmtComma (n : Nat) : String :=
  String.mk ((commaGroups (toString n).data.reverse).reverse)

/-! ### Vector gateway interface (`qdrant_embeddings_repository.search_similar`)

The query actually sent to the gateway: the `limit`, the similarity
threshold and the pushed-down metadata filter, exactly the arguments of
`search_similar` in `documents.py` / `search.py`. -/

inductive FieldMatch where
  /-- `MatchValue(value=v)` -/
  | value (v : String)
  /-- `MatchAny(any=vs)` -/
  | anyOf (vs : List String)
deriving DecidableEq

structure FieldConditionRec where
  key : String
  matchCond : FieldMatch
deriving DecidableEq

/-- `QdrantFilters(must=conds)`: a conjunctive (AND) predicate. -/
structure QdrantFiltersRec where
  must : List FieldConditionRec
deriving DecidableEq

structure GatewayQuery where
  limit : Nat
  similarity_threshold : ℚ
  filters : Option QdrantFiltersRec
deriving DecidableEq

/-- Filter construction in the `search_documents` tool (`documents.py`
lines 103-127): conditions are appended only for non-empty (truthy)
parameter lists. -/
def toolFilters (document_ids document_types : List String) : Option QdrantFiltersRec :=
  let conds :=
    (if document_ids ≠ [] then [FieldConditionRec.mk "document_id" (.anyOf document_ids)] else [])
    ++ (if document_types ≠ [] then [FieldConditionRec.mk "document_type" (.anyOf document_types)] else [])
  if conds = [] then none else some ⟨conds⟩

/-- The gateway query issued by the `search_documents` tool
(`documents.py` lines 129-135): `limit` passed through unchanged and a
hard-coded similarity threshold of 0.8. -/
def toolGatewayQuery (limit : Nat) (document_ids document_types : List String) : GatewayQuery :=
  ⟨limit, mkRat 4 5, toolFilters document_ids document_types⟩

/-- Filter construction in `SearchDocumentsInteractor.execute`
(`search.py` lines 56-80); `document_id` is a single optional id (empty
string models Python `None`/empty, both falsy). -/
def interactorFilters (document_id : String) (document_types : List String) :
    Option QdrantFiltersRec :=
  let conds :=
    (if document_id ≠ "" then [FieldConditionRec.mk "document_id" (.value document_id)] else [])
    ++ (if document_types ≠ [] then [FieldConditionRec.mk "document_type" (.anyOf document_types)] else [])
  if conds = [] then none else some ⟨conds⟩

/-- The gateway query issued by `SearchDocumentsInteractor.execute`
(`search.py` lines 82-88): `limit` and `similarity_threshold` passed
through unchanged. -/
def interactorGatewayQuery (limit : Nat) (similarity_threshold : ℚ)
    (document_id : String) (document_types : List String) : GatewayQuery :=
  ⟨limit, similarity_threshold, interactorFilters document_id document_types⟩

/-! ### The `search_documents` tool (`app/utils/tools/documents.py`) -/

/-- A scored point returned by the vector gateway, with the payload
fields the code reads. -/
structure ScoredPointRec where
  score : ℚ
  document_id : String
  chunk_content : String
  chunk_index : Int
  filename : String
  content_type : String
  document_type : String
deriving DecidableEq

/-- A document row from the relational store, with the fields the tool
reads (`type_value` is `doc.type.value`). -/
structure DocumentRec where
  id : String
  original_filename : String
  content : Option String
  content_type : String
  type_value : String
  keywords : List (String × PyVal)

/-- The externals the search code awaits: the embedding gateway, the
vector gateway and the document repository.  Any of them may raise
(`Except.error` carries `str(e)`). -/
structure SearchGatewayEnv where
  embed : String → Except String (List ℚ)
  searchSimilar : GatewayQuery → Except String (List ScoredPointRec)
  getDocuments : List String → Except String (List DocumentRec)

/-- One entry of a `documents_scores[..]["chunks"]` list. -/
structure ChunkRec where
  content : String
  score : ℚ
  chunk_index : Int
deriving DecidableEq

/-- `doc_data["chunks"].sort(key=lambda x: x["score"], reverse=True)`. -/
def chunkScoreRel (a b : ChunkRec) : Prop := b.score ≤ a.score

instance : DecidableRel chunkScoreRel := by
  intro a b; unfold chunkScoreRel; infer_instance

instance : IsTotal ChunkRec chunkScoreRel := ⟨fun a b => le_total b.score a.score⟩

instance : IsTrans ChunkRec chunkScoreRel := ⟨fun _ _ _ h1 h2 => le_trans h2 h1⟩

def sortChunksByScore (cs : List ChunkRec) : List ChunkRec :=
  List.insertionSort chunkScoreRel cs

/-- Keys of the `documents_scores` dict in insertion (first-seen) order. -/
def pointKeys (results : List ScoredPointRec) : List String :=
  firstKeys (results.map (·.document_id))

def pointsFor (results : List ScoredPointRec) (d : String) : List ScoredPointRec :=
  results.filter (fun p => p.document_id == d)

/-- `documents_scores[d]` after the grouping loop and the per-document
chunk sort: max similarity folded from 0, payload fields from the first
point of the document, chunks sorted by score descending. -/
structure DocScoreRec where
  max_similarity : ℚ
  filename : String
  content_type : String
  document_type : String
  chunks : List ChunkRec

def docScoreFor (results : List ScoredPointRec) (d : String) : DocScoreRec :=
  let pts := pointsFor results d
  { max_similarity := pts.foldl (fun a p => if p.score > a then p.score else a) 0
    filename := ((pts.head?).map (·.filename)).getD ""
    content_type := ((pts.head?).map (·.content_type)).getD ""
    document_type := ((pts.head?).map (·.document_type)).getD "OTHER"
    chunks := sortChunksByScore (pts.map (fun p => ⟨p.chunk_content, p.score, p.chunk_index⟩)) }

/-- One keyword display entry: dict values contribute their `value`
field, other values their `str(...)`; falsy values are skipped. -/
def keywordEntry (k : String) (v : PyVal) : Option String :=
  let kv : PyVal :=
    match v with
    | .pyDict es => (dictGet es "value").getD (.pyStr "")
    | _ => .pyStr (pyToString v)
  if pyTruthy kv then some (k ++ ": " ++ pyToString kv) else none

def keywordsText (kws : List (String × PyVal)) : String :=
  let ds := kws.filterMap (fun e => keywordEntry e.1 e.2)
  if ds.isEmpty then "No keywords" else String.intercalate " | " ds

/-- `chunks_content`: each chunk is rendered on its own, in the order of
the (score-sorted) chunk list, never concatenated with its neighbour. -/
def chunksContent (cs : List ChunkRec) : List String :=
  cs.enum.map (fun ic =>
    "Chunk " ++ toString (ic.1 + 1) ++ " (score: " ++ fmt3 ic.2.score ++ "): " ++ ic.2.content)

structure ToolDocResult where
  filename : String
  id : String
  file_size : Nat
  keywords : String
  relevance_score : ℚ
  content_type : String
  document_type : String
  chunks : List String
  total_chunks : Nat
deriving DecidableEq

/-- `documents_map.get(doc_id)` for a map built from rows with unique
ids. -/
def docsMap (docs : List DocumentRec) (d : String) : Option DocumentRec :=
  docs.find? (fun doc => doc.id == d)

/-- The `results` list of the tool (documents in first-seen order,
skipping ids missing from the relational store). -/
def buildResults (results : List ScoredPointRec) (docs : List DocumentRec) :
    List ToolDocResult :=
  (pointKeys results).filterMap (fun d =>
    match docsMap docs d with
    | none => none
    | some doc =>
      let g := docScoreFor results d
      some { filename := doc.original_filename
             id := d
             file_size := (doc.content.map String.length).getD 0
             keywords := keywordsText doc.keywords
             relevance_score := round3 g.max_similarity
             content_type := doc.content_type
             document_type := doc.type_value
             chunks := chunksContent g.chunks
             total_chunks := g.chunks.length })

/-- `results.sort(key=lambda x: x["relevance_score"], reverse=True)`. -/
def relevanceRel (a b : ToolDocResult) : Prop := b.relevance_score ≤ a.relevance_score

instance : DecidableRel relevanceRel := by
  intro a b; unfold relevanceRel; infer_instance

instance : IsTotal ToolDocResult relevanceRel :=
  ⟨fun a b => le_total b.relevance_score a.relevance_score⟩

instance : IsTrans ToolDocResult relevanceRel := ⟨fun _ _ _ h1 h2 => le_trans h2 h1⟩

def filterInfo (document_ids document_types : List String) : List String :=
  (if document_ids ≠ [] then
    ["limited to " ++ toString document_ids.length ++ " specified documents"] else [])
  ++ (if document_types ≠ [] then
    ["filtered by types: " ++ String.intercalate ", " document_types] else [])

def responseHeader (query : String) (nres : Nat)
    (document_ids document_types : List String) : String :=
  let fi := filterInfo document_ids document_types
  if fi ≠ [] then
    "📄 Found " ++ toString nres ++ " documents matching \x27" ++ query ++ "\x27 ("
      ++ String.intercalate " and " fi ++ "):\n\n"
  else
    "📄 Found " ++ toString nres ++ " documents matching \x27" ++ query ++ "\x27:\n\n"

/-- The per-document block of the formatted response (`documents.py`
lines 235-249). -/
def docBlock (i : Nat) (d : ToolDocResult) : String :=
  "**" ++ toString i ++ ". " ++ d.filename ++ "**\n"
  ++ "   🆔 ID: " ++ d.id ++ " | 📊 Size: " ++ fmtComma d.file_size ++ " characters\n"
  ++ "   📋 Type: " ++ d.document_type ++ " | 📄 Format: " ++ d.content_type ++ "\n"
  ++ (if d.keywords != "" then "   🔑 Keywords: " ++ d.keywords ++ "\n" else "")
  ++ "   ⭐ Relevance: " ++ fmt3 d.relevance_score ++ "\n"
  ++ (if d.chunks != ([] : List String) then
        "   📝 Found " ++ toString d.total_chunks ++ " relevant chunks:\n"
        ++ String.join (d.chunks.map (fun c => "      • " ++ c ++ "\n"))
      else "")
  ++ "\n"

def formatResponse (query : String) (document_ids document_types : List String)
    (rs : List ToolDocResult) : String :=
  responseHeader query rs.length document_ids document_types
  ++ String.join (rs.enum.map (fun ir => docBlock (ir.1 + 1) ir.2))

/-- The body of the `try:` block of the `search_documents` tool; each
awaited call may raise, and the first exception propagates. -/
def searchDocumentsCore (env : SearchGatewayEnv) (query : String) (limit : Nat)
    (document_ids document_types : List String) : Except String (List PyVal) :=
  match env.embed ("query: " ++ query) with
  | .error e => .error e
  | .ok _queryVector =>
    match env.searchSimilar (toolGatewayQuery limit document_ids document_types) with
    | .error e => .error e
    | .ok searchResults =>
      if searchResults = [] then
        .ok [PyVal.textContent "text"
          ("No documents found matching query: \x27" ++ query ++ "\x27")]
      else
        match env.getDocuments (pointKeys searchResults) with
        | .error e => .error e
        | .ok docs =>
          .ok [PyVal.textContent "text" (formatResponse query document_ids document_types
            (List.insertionSort relevanceRel (buildResults searchResults docs)))]

/-- The `search_documents` tool: every exception raised inside is caught
and turned into a normal `TextContent` reply (`documents.py` lines
253-258), so the tool itself never raises. -/
def searchDocumentsTool (env : SearchGatewayEnv) (query : String) (limit : Nat)
    (document_ids document_types : List String) : List PyVal :=
  match searchDocumentsCore env query limit document_ids document_types with
  | .ok v => v
  | .error e => [PyVal.textContent "text" ("Error searching documents: " ++ e)]

/-! ### `SearchDocumentsInteractor.execute` (`search.py`) -/

/-- Step 3 of `execute`: one `matches` entry per gateway result whose
document exists in the relational store (similarity rounded to 3
digits); display-only fields omitted. -/
def interactorMatches (results : List ScoredPointRec) (docs : List DocumentRec) :
    List MatchRec :=
  results.filterMap (fun r =>
    match docsMap docs r.document_id with
    | none => none
    | some _doc => some ⟨r.document_id, r.chunk_content, round3 r.score, r.chunk_index, none⟩)

/-- `SearchDocumentsInteractor.execute`: embed, query the gateway with
the caller's limit/threshold/filters, build matches, and sort them with
`_sort_results_optimally`. -/
def searchInteractorExecute (env : SearchGatewayEnv) (query : String) (limit : Nat)
    (similarity_threshold : ℚ) (document_id : String) (document_types : List String) :
    Except String (List MatchRec) :=
  match env.embed ("query: " ++ query) with
  | .error e => .error e
  | .ok _queryVector =>
    match env.searchSimilar
        (interactorGatewayQuery limit similarity_threshold document_id document_types) with
    | .error e => .error e
    | .ok searchResults =>
      if firstKeys (searchResults.map (·.document_id)) = [] then
        .ok (sortResultsOptimally (interactorMatches searchResults []) query)
      else
        match env.getDocuments (firstKeys (searchResults.map (·.document_id))) with
        | .error e => .error e
        | .ok docs =>
          .ok (sortResultsOptimally (interactorMatches searchResults docs) query)

/-- Concrete gateway environment used to analyse the excerpt
presentation (three chunks of one document with indices 2, 3, 7). -/
def c4Env : SearchGatewayEnv :=
  { embed := fun _ => .ok [1]
    searchSimilar := fun _ => .ok
      [⟨mkRat 17 20, "d1", "AAA", 2, "file.pdf", "application/pdf", "OTHER"⟩,
       ⟨mkRat 21 25, "d1", "BBB", 3, "file.pdf", "application/pdf", "OTHER"⟩,
       ⟨mkRat 9 10, "d1", "CCC", 7, "file.pdf", "application/pdf", "OTHER"⟩]
    getDocuments := fun _ => .ok
      [⟨"d1", "file.pdf", some "xyz", "application/pdf", "OTHER", []⟩] }

/-- The text of the single TextContent the tool returns on `c4Env`. -/
def c4ResponseText : String :=
  match searchDocumentsTool c4Env "query" 10 [] [] with
  | [PyVal.textContent _ t] => t
  | _ => ""

/-! ### Agent conversation orchestrator

The language model is modelled as a script: iteration number (1-based)
to the outcome of that round\'s model call.  Tools are async callables
that either return a Python value or raise (`Except.error` carries
`str(e)`).  The registry is `available_tools_dict.get`. -/

structure ToolRequest where
  name : String
  args : String
deriving DecidableEq

def ToolFn : Type := String → Except String PyVal

def Registry : Type := String → Option ToolFn

/-- The `ToolCall` pydantic record (`dto/chat.py`); `arguments` kept
opaque as `args`. -/
structure ToolCallRec where
  name : String
  args : String
  output : Option String := none
  success : Bool := true
  error : Option String := none
deriving DecidableEq

inductive ChatMsg where
  | system (content : String)
  | user (content : String)
  | assistant (content : String) (toolReqs : List ToolRequest)
  | tool (name : String) (content : String)
deriving DecidableEq

/-- The `Source` pydantic record; field values kept as the Python values
extracted from the duck-typed tool output. -/
structure SourceRec where
  filename : PyVal
  content : PyVal
  similarity : PyVal
  chunk_index : PyVal

/-- Python `for x in v` over a `PyVal`: lists iterate elements, strings
iterate 1-character strings, dicts iterate keys, anything else raises. -/
def pyIter : PyVal → Except String (List PyVal)
  | .pyList xs => .ok xs
  | .pyStr s => .ok (s.data.map (fun c => .pyStr (String.mk [c])))
  | .pyDict es => .ok (es.map (fun e => .pyStr e.1))
  | _ => .error "TypeError: object is not iterable"

/-- `Source(filename=result.get(..), content=chunk.get(..), ..)` for one
chunk; a non-dict chunk raises on `.get`. -/
def extractFromChunk (resEntries : List (String × PyVal)) (c : PyVal) :
    Except String SourceRec :=
  match c with
  | .pyDict ces =>
      .ok ⟨(dictGet resEntries "filename").getD (.pyStr "Unknown"),
           (dictGet ces "content").getD (.pyStr ""),
           (dictGet ces "similarity").getD (.pyNum 0),
           (dictGet ces "chunk_index").getD (.pyNum 0)⟩
  | _ => .error "AttributeError: object has no attribute get"

/-- Walk the chunks of one result; on the first raising chunk, keep the
sources appended so far and report the exception. -/
def extractChunks (resEntries : List (String × PyVal)) :
    List SourceRec → List PyVal → List SourceRec × Option String
  | acc, [] => (acc, none)
  | acc, c :: cs =>
    match extractFromChunk resEntries c with
    | .error e => (acc, some e)
    | .ok srec => extractChunks resEntries (acc ++ [srec]) cs

def extractResults : List SourceRec → List PyVal → List SourceRec × Option String
  | acc, [] => (acc, none)
  | acc, r :: rs =>
    match r with
    | .pyDict es =>
      match dictGet es "best_chunks" with
      | none => extractResults acc rs
      | some bc =>
        match pyIter bc with
        | .error e => (acc, some e)
        | .ok cs =>
          match extractChunks es acc cs with
          | (acc2, none) => extractResults acc2 rs
          | (acc2, some e) => (acc2, some e)
    | _ => extractResults acc rs

/-- Source extraction of the Ollama orchestrator (`generate.py` lines
154-163 / 473-482): pattern-matches a list of dicts carrying
`best_chunks`; anything else contributes nothing. -/
def extractSources : PyVal → List SourceRec × Option String
  | .pyList results => extractResults [] results
  | _ => ([], none)

/-- Source extraction of the OpenAI streaming orchestrator
(`openai_generate.py` lines 593-606): additionally gated on the first
element being a dict with a `best_chunks` key. -/
def extractSourcesOpenAI : PyVal → List SourceRec × Option String
  | .pyList (r0 :: rs) =>
    match r0 with
    | .pyDict es =>
        if (dictGet es "best_chunks").isSome then extractResults [] (r0 :: rs)
        else ([], none)
    | _ => ([], none)
  | _ => ([], none)

/-! ### Tool-output truncation (`generate.py` lines 166-178 / 485-497) -/

def maxToolResponseLength : Nat := 8000

def truncMarker : String := "\n\n[... response truncated due to length ...]"

/-- `tool_response[:8000] + marker` when over the threshold, unchanged
otherwise. -/
def truncateToolResponse (s : String) : String :=
  if s.length > maxToolResponseLength then
    String.mk (s.data.take maxToolResponseLength) ++ truncMarker
  else s

def toolMsgContentOllama (resp : String) : String :=
  "TOOL OUTPUT - USE ONLY THIS INFORMATION:\n\n" ++ resp
    ++ "\n\nIMPORTANT: Base your answer ONLY on the information above. Do NOT add information from your training data."

def toolMsgContentOpenAI (resp : String) : String :=
  "TOOL OUTPUT - USE ONLY THIS INFORMATION:\n\n" ++ resp
    ++ "\n\nIMPORTANT: Base your answer STRICTLY on the information above. Do NOT add information from your training data."

/-! ### Per-invocation tool processing -/

/-- Outcome of processing one requested tool invocation: the recorded
`ToolCall`, the sources appended, the `tool`-role history message (absent
when the invocation or the source extraction raised), and whether
`has_successful_tool` was set (which happens before extraction). -/
structure ToolStepResult where
  record : ToolCallRec
  newSources : List SourceRec
  historyMsg : Option ChatMsg
  hadSuccess : Bool

/-- Handling of the awaited call\'s outcome in `generate.py` lines
141-188: a raised exception is recorded; a returned value is recorded as
`str(output)` with success set, then sources are extracted (which may
itself raise, flipping success while keeping the output) and the
truncated output is appended to history. -/
def processToolOllamaCall (req : ToolRequest) : Except String PyVal → ToolStepResult
  | .error e => ⟨⟨req.name, req.args, none, false, some e⟩, [], none, false⟩
  | .ok v =>
    let out := pyToString v
    match (if req.name = "search_documents" then extractSources v else ([], none)) with
    | (srcs, some e) => ⟨⟨req.name, req.args, some out, false, some e⟩, srcs, none, true⟩
    | (srcs, none) =>
      ⟨⟨req.name, req.args, some out, true, none⟩, srcs,
        some (.tool req.name (toolMsgContentOllama (truncateToolResponse out))), true⟩

/-- `generate.py` lines 134-188 (one iteration of the tool loop). -/
def processToolOllama (reg : Registry) (req : ToolRequest) : ToolStepResult :=
  match reg req.name with
  | none =>
    ⟨⟨req.name, req.args, none, false, some ("Function " ++ req.name ++ " not found")⟩,
      [], none, false⟩
  | some f => processToolOllamaCall req (f req.args)

/-- `"\n\n".join(item.text for item in func_output if hasattr(item, \x27text\x27))`
when the output is a non-empty list whose first element has `.text`,
else `str(func_output)`. -/
def openAIToolOutput (v : PyVal) : String :=
  match v with
  | .pyList (x :: xs) =>
    match x with
    | .textContent _ _ =>
        String.intercalate "\n\n" ((x :: xs).filterMap (fun e =>
          match e with
          | .textContent _ t => some t
          | _ => none))
    | _ => pyToString v
  | _ => pyToString v

def processToolOpenAIStreamCall (req : ToolRequest) : Except String PyVal → ToolStepResult
  | .error e => ⟨⟨req.name, req.args, none, false, some e⟩, [], none, false⟩
  | .ok v =>
    let out := openAIToolOutput v
    match (if req.name = "search_documents" then extractSourcesOpenAI v else ([], none)) with
    | (srcs, some e) => ⟨⟨req.name, req.args, some out, false, some e⟩, srcs, none, true⟩
    | (srcs, none) =>
      ⟨⟨req.name, req.args, some out, true, none⟩, srcs,
        some (.tool req.name (toolMsgContentOpenAI out)), true⟩

/-- `openai_generate.py` lines 549-630 (one streaming tool invocation);
no truncation is applied to the history message. -/
def processToolOpenAIStream (reg : Registry) (req : ToolRequest) : ToolStepResult :=
  match reg req.name with
  | none =>
    ⟨⟨req.name, req.args, none, false, some ("Функция " ++ req.name ++ " не найдена")⟩,
      [], none, false⟩
  | some f => processToolOpenAIStreamCall req (f req.args)

def processToolOpenAIExecCall (req : ToolRequest) : Except String PyVal → ToolStepResult
  | .error e => ⟨⟨req.name, req.args, none, false, some e⟩, [], none, false⟩
  | .ok v =>
    let out := openAIToolOutput v
    ⟨⟨req.name, req.args, some out, true, none⟩, [],
      some (.tool req.name (toolMsgContentOpenAI out)), true⟩

/-- `openai_generate.py` lines 217-263 (non-streaming tool invocation):
no source extraction at all. -/
def processToolOpenAIExec (reg : Registry) (req : ToolRequest) : ToolStepResult :=
  match reg req.name with
  | none =>
    ⟨⟨req.name, req.args, none, false, some ("Функция " ++ req.name ++ " не найдена")⟩,
      [], none, false⟩
  | some f => processToolOpenAIExecCall req (f req.args)

/-! ### Ollama non-streaming loop (`GenerateAnswerInteractor.execute`) -/

inductive LlmTurn where
  | timeout
  | reply (content : String) (toolReqs : List ToolRequest)

structure OllamaLoopState where
  history : List ChatMsg
  toolCalls : List ToolCallRec
  sources : List SourceRec
  lastResp : Option (String × List ToolRequest)
  iterations : Nat

/-- Process one round\'s tool requests in order, appending history
messages, records and sources; the boolean is `has_successful_tool`. -/
def procReqsOllama (reg : Registry) (st : OllamaLoopState) (reqs : List ToolRequest) :
    OllamaLoopState × Bool :=
  let steps := reqs.map (processToolOllama reg)
  let h := st.history ++ steps.filterMap (fun t => t.historyMsg)
  let tcs := st.toolCalls ++ steps.map (fun t => t.record)
  let srcs := st.sources ++ (steps.map (fun t => t.newSources)).flatten
  (⟨h, tcs, srcs, st.lastResp, st.iterations⟩, steps.any (fun t => t.hadSuccess))

/-- The `while iteration < max_iterations` loop, fuel = rounds left.
A timeout breaks with `response` untouched; an empty tool-call list
breaks; an all-failing round breaks; otherwise loop. -/
def ollamaRounds (script : Nat → LlmTurn) (reg : Registry) :
    Nat → OllamaLoopState → OllamaLoopState
  | 0, st => st
  | fuel+1, st =>
    let it := st.iterations + 1
    match script it with
    | .timeout => { st with iterations := it }
    | .reply c reqs =>
      let st1 : OllamaLoopState :=
        ⟨st.history ++ [.assistant c reqs], st.toolCalls, st.sources, some (c, reqs), it⟩
      if reqs = [] then st1
      else
        let pr := procReqsOllama reg st1 reqs
        if pr.2 then ollamaRounds script reg fuel pr.1 else pr.1

def timeoutApologyRu : String :=
  "Извините, обработка запроса заняла слишком много времени. Попробуйте упростить вопрос."

def noAnswerApologyRu : String :=
  "Извините, я не смог сгенерировать ответ на основе найденной информации. Попробуйте переформулировать вопрос."

def genericErrorPrefixRu : String := "Произошла ошибка при обработке запроса: "

/-- `str(UnboundLocalError)` raised by `generate.py` line 202 when the
loop broke before `response` was ever assigned. -/
def unboundLocalMsg : String :=
  "cannot access local variable \x27response\x27 where it is not associated with a value"

def streamInitApologyRu : String :=
  "Извините, не удалось начать генерацию ответа. Попробуйте ещё раз."

def noResponseApologyRu : String := "Извините, не удалось получить ответ."

/-- Result of one orchestrator run: the final content, the metadata
persisted with the assistant message, and the rounds executed. -/
structure OrchRun where
  iterations : Nat
  content : String
  sources : List SourceRec
  toolCalls : List ToolCallRec
  history : List ChatMsg
  errored : Bool

/-- `GenerateAnswerInteractor.execute`.  After the loop, line 202 reads
`response.message.content` unconditionally: if no model call ever
returned (`lastResp = none`, i.e. a first-round timeout), that read
raises `UnboundLocalError`, the `except` branch replaces the content
with the generic error string; otherwise the last model content (or the
no-answer apology) replaces whatever `final_content` held — including
the timeout apology assigned at line 120. -/
def ollamaExecute (script : Nat → LlmTurn) (reg : Registry) (userMsg : String)
    (initHistory : List ChatMsg) : OrchRun :=
  let st := ollamaRounds script reg 5 ⟨initHistory ++ [.user userMsg], [], [], none, 0⟩
  let content :=
    match st.lastResp with
    | none => genericErrorPrefixRu ++ unboundLocalMsg
    | some (c, _) => if c ≠ "" then c else noAnswerApologyRu
  let errored :=
    match st.lastResp with
    | none => true
    | some _ => false
  ⟨st.iterations, content, st.sources, st.toolCalls, st.history, errored⟩

/-! ### Ollama streaming loop (`GenerateAnswerInteractor.execute_stream`) -/

inductive LlmStreamTurn where
  | initTimeout
  | streamed (content : String) (toolReqs : List ToolRequest)

structure StreamLoopState where
  history : List ChatMsg
  toolCalls : List ToolCallRec
  sources : List SourceRec
  finalContent : String
  lastResp : Option (String × List ToolRequest)
  iterations : Nat

def procReqsOllamaStream (reg : Registry) (st : StreamLoopState) (reqs : List ToolRequest) :
    StreamLoopState × Bool :=
  let steps := reqs.map (processToolOllama reg)
  let h := st.history ++ steps.filterMap (fun t => t.historyMsg)
  let tcs := st.toolCalls ++ steps.map (fun t => t.record)
  let srcs := st.sources ++ (steps.map (fun t => t.newSources)).flatten
  (⟨h, tcs, srcs, st.finalContent, st.lastResp, st.iterations⟩, steps.any (fun t => t.hadSuccess))

/-- The streaming loop at round granularity: a round either fails to
start (timeout, sets the apology and breaks with `response = None`) or
delivers accumulated content plus the last chunk\'s tool calls. -/
def ollamaStreamRounds (script : Nat → LlmStreamTurn) (reg : Registry) :
    Nat → StreamLoopState → StreamLoopState
  | 0, st => st
  | fuel+1, st =>
    let it := st.iterations + 1
    match script it with
    | .initTimeout =>
      ⟨st.history, st.toolCalls, st.sources, streamInitApologyRu, none, it⟩
    | .streamed c reqs =>
      if reqs ≠ [] then
        let st1 : StreamLoopState :=
          ⟨st.history ++ [.assistant c reqs], st.toolCalls, st.sources, st.finalContent,
            some (c, reqs), it⟩
        let pr := procReqsOllamaStream reg st1 reqs
        if pr.2 then ollamaStreamRounds script reg fuel pr.1 else pr.1
      else if c ≠ "" then
        ⟨st.history ++ [.assistant c []], st.toolCalls, st.sources, c, some (c, reqs), it⟩
      else
        ⟨st.history, st.toolCalls, st.sources, noResponseApologyRu, some (c, reqs), it⟩

/-- `execute_stream` (`generate.py`): unlike `execute`, the post-loop
content keeps `final_content` when it was set during the loop. -/
def ollamaStreamExecute (script : Nat → LlmStreamTurn) (reg : Registry) (userMsg : String)
    (initHistory : List ChatMsg) : OrchRun :=
  let st0 : StreamLoopState := ⟨initHistory ++ [.user userMsg], [], [], "", none, 0⟩
  let st := ollamaStreamRounds script reg 5 st0
  let content :=
    if st.finalContent ≠ "" then st.finalContent
    else
      match st.lastResp with
      | some (c, _) => if c ≠ "" then c else noAnswerApologyRu
      | none => noAnswerApologyRu
  ⟨st.iterations, content, st.sources, st.toolCalls, st.history, false⟩

/-! ### OpenAI streaming loop (`OpenAIGenerateInteractor.execute_stream`) -/

inductive OpenAIStreamTurn where
  /-- stream initialisation failed after all retries: error event, return -/
  | initFail (msg : String)
  /-- exception while consuming the stream: error event, return -/
  | streamFail (msg : String)
  | streamed (content : String) (toolReqs : List ToolRequest)

structure OpenAIStreamState where
  history : List ChatMsg
  toolCalls : List ToolCallRec
  sources : List SourceRec
  acc : String
  iterations : Nat

inductive OpenAIStreamOutcome where
  | aborted (msg : String) (st : OpenAIStreamState)
  | finished (st : OpenAIStreamState)

/-- The streaming loop: NOTE it never checks `has_successful_tool` — a
round with tool calls always loops again, failing or not. -/
def openaiStreamRounds (script : Nat → OpenAIStreamTurn) (reg : Registry) :
    Nat → OpenAIStreamState → OpenAIStreamOutcome
  | 0, st => .finished st
  | fuel+1, st =>
    let it := st.iterations + 1
    match script it with
    | .initFail m => .aborted m { st with iterations := it }
    | .streamFail m => .aborted m { st with iterations := it }
    | .streamed c reqs =>
      let acc := st.acc ++ c
      if reqs ≠ [] then
        let steps := reqs.map (processToolOpenAIStream reg)
        let h := st.history ++ [.assistant acc reqs] ++ steps.filterMap (fun t => t.historyMsg)
        let tcs := st.toolCalls ++ steps.map (fun t => t.record)
        let srcs := st.sources ++ (steps.map (fun t => t.newSources)).flatten
        openaiStreamRounds script reg fuel ⟨h, tcs, srcs, "", it⟩
      else if acc ≠ "" then
        .finished ⟨st.history ++ [.assistant acc []], st.toolCalls, st.sources, acc, it⟩
      else
        .finished { st with iterations := it }

def capFallbackRu : String :=
  "Извините, я не смог найти достаточно информации для полного ответа на ваш вопрос."

def noGenFallbackRu : String :=
  "Извините, я не смог сгенерировать ответ. Попробуйте переформулировать вопрос."

/-- `execute_stream` (`openai_generate.py`), including the bonus
finalisation call after the cap is exhausted with no content. -/
def openaiStreamExecute (script : Nat → OpenAIStreamTurn) (finalCall : Except String String)
    (reg : Registry) (userMsg : String) (initHistory : List ChatMsg) : OrchRun :=
  match openaiStreamRounds script reg 5 ⟨initHistory ++ [.user userMsg], [], [], "", 0⟩ with
  | .aborted m st => ⟨st.iterations, m, st.sources, st.toolCalls, st.history, true⟩
  | .finished st =>
    if st.iterations ≥ 5 ∧ st.acc = "" then
      match finalCall with
      | .error e => ⟨st.iterations, "Ошибка: " ++ e, st.sources, st.toolCalls, st.history, true⟩
      | .ok c =>
        let acc := if c ≠ "" then c else capFallbackRu
        ⟨st.iterations, acc, st.sources, st.toolCalls, st.history ++ [.assistant acc []], false⟩
    else
      let acc := if st.acc ≠ "" then st.acc else noGenFallbackRu
      ⟨st.iterations, acc, st.sources, st.toolCalls, st.history, false⟩

/-! ### OpenAI non-streaming round (`OpenAIGenerateInteractor.execute`)

A single model call; if it requests tools they are all processed once
and one follow-up model call produces the final content — there is no
loop in this variant.  Sources are never extracted. -/

inductive OpenAICallResult where
  | timeoutErr
  | apiErr (e : String)
  | reply (content : String) (toolReqs : List ToolRequest)

def openaiExecute (firstCall finalCall : OpenAICallResult) (reg : Registry)
    (userMsg : String) (initHistory : List ChatMsg) : OrchRun :=
  let hist := initHistory ++ [.user userMsg]
  match firstCall with
  | .timeoutErr => ⟨1, timeoutApologyRu, [], [], hist, true⟩
  | .apiErr e => ⟨1, genericErrorPrefixRu ++ e, [], [], hist, true⟩
  | .reply c [] => ⟨1, c, [], [], hist ++ [.assistant c []], false⟩
  | .reply c (r :: rs) =>
    let hist1 := hist ++ [.assistant c (r :: rs)]
    let steps := (r :: rs).map (processToolOpenAIExec reg)
    let hist2 := hist1 ++ steps.filterMap (fun t => t.historyMsg)
    let tcs := steps.map (fun t => t.record)
    match finalCall with
    | .timeoutErr => ⟨1, timeoutApologyRu, [], tcs, hist2, true⟩
    | .apiErr e => ⟨1, genericErrorPrefixRu ++ e, [], tcs, hist2, true⟩
    | .reply c2 _ => ⟨1, c2, [], tcs, hist2 ++ [.assistant c2 []], false⟩

/-! ### The registry entry for the search tool -/

structure SearchArgsRec where
  query : String
  limit : Nat
  document_ids : List String
  document_types : List String

/-- `available_tools_dict["search_documents"]`: kwargs are decoded by
`decode`; the tool never raises because its body catches everything. -/
def searchToolFn (env : SearchGatewayEnv) (decode : String → SearchArgsRec) : ToolFn :=
  fun args =>
    let a := decode args
    .ok (.pyList (searchDocumentsTool env a.query a.limit a.document_ids a.document_types))

/-- A tool invocation "fails" in the sense of claim C1: unknown tool
name, or the tool raised. -/
def toolInvocationFails (reg : Registry) (r : ToolRequest) : Prop :=
  reg r.name = none ∨ ∃ f e, reg r.name = some f ∧ f r.args = .error e

/-- Predicate of claim C9 on a recorded ToolCall. -/
def toolCallOk (tc : ToolCallRec) : Prop :=
  tc.success = false → tc.output = none ∧ tc.error ≠ none

/-! ### Concrete inputs for the orchestrator claims -/

def emptyRegistry : Registry := fun _ => none

def c2Script : Nat → LlmTurn := fun _ => .timeout

def c1FailScript : Nat → OpenAIStreamTurn := fun _ => .streamed "" [⟨"nope", ""⟩]

def c1OllamaFailScript : Nat → LlmTurn := fun _ => .reply "" [⟨"nope", ""⟩]

def c1OllamaStreamFailScript : Nat → LlmStreamTurn := fun _ => .streamed "" [⟨"nope", ""⟩]

def c7Env : SearchGatewayEnv :=
  { embed := fun _ => .error "boom"
    searchSimilar := fun _ => .ok []
    getDocuments := fun _ => .ok [] }

def c7Decode : String → SearchArgsRec := fun _ => ⟨"q", 10, [], []⟩

def c7Registry : Registry :=
  fun n => if n = "search_documents" then some (searchToolFn c7Env c7Decode) else none

def c7Req : ToolRequest := ⟨"search_documents", "kwargs"⟩

/-- The state carried out of the OpenAI streaming loop, whether it
returned early (error event) or finished. -/
def outcomeState : OpenAIStreamOutcome → OpenAIStreamState
  | .aborted _ st => st
  | .finished st => st

/-- The registry binds the name "search_documents" to the actual search
tool (as `registry.py` does). -/
def regHasSearchTool (reg : Registry) : Prop :=
  ∃ env decode, reg "search_documents" = some (searchToolFn env decode)

/-- Concrete chunks used to witness the amended C4. -/
def c4DemoChunks : List ChunkRec :=
  [⟨"AAA", mkRat 17 20, 2⟩, ⟨"CCC", mkRat 9 10, 7⟩]

/-- Concrete 8,001-character tool output witnessing C8. -/
def c8DemoOutput : String := String.mk (List.replicate 8001 'x')

/-! ## Theorems -/

theorem rat_div_key (a b : ℚ) :
    a / b = ((a.num * (b.den : Int) : Int) : ℚ) / ((a.den : ℚ) * (b.num : ℚ)) := by
  by_cases hb : b = 0
  · subst hb
    simp
  · have hbn : (b.num : ℚ) ≠ 0 := by
      exact_mod_cast Rat.num_ne_zero.mpr hb
    have had : ((a.den : ℚ)) ≠ 0 := by
      exact_mod_cast a.den_ne_zero
    rw [div_eq_div_iff hb (by exact mul_ne_zero had hbn)]
    have ha : a * (a.den : ℚ) = (a.num : ℚ) := by
      calc a * (a.den : ℚ)
          = ((a.num : ℚ) / (a.den : ℚ)) * (a.den : ℚ) := by rw [Rat.num_div_den]
        _ = (a.num : ℚ) := div_mul_cancel₀ _ had
    have hbden : (b.den : ℚ) ≠ 0 := by exact_mod_cast b.den_ne_zero
    have hb2 : b * (b.den : ℚ) = (b.num : ℚ) := by
      calc b * (b.den : ℚ)
          = ((b.num : ℚ) / (b.den : ℚ)) * (b.den : ℚ) := by rw [Rat.num_div_den]
        _ = (b.num : ℚ) := div_mul_cancel₀ _ hbden
    push_cast
    calc a * ((a.den : ℚ) * (b.num : ℚ))
        = (a * (a.den : ℚ)) * (b.num : ℚ) := by ring
      _ = (a.num : ℚ) * (b.num : ℚ) := by rw [ha]
      _ = (a.num : ℚ) * (b * (b.den : ℚ)) := by rw [hb2]
      _ = (a.num : ℚ) * (b.den : ℚ) * b := by ring

theorem ratDiv_eq_div (a b : ℚ) : ratDiv a b = a / b := by
  unfold ratDiv
  by_cases hb : b.num < 0
  · rw [if_pos hb, Rat.mkRat_eq_div, rat_div_key a b]
    have habs : ((b.num.natAbs : Nat) : ℚ) = -((b.num : Int) : ℚ) := by
      have h1 : ((b.num.natAbs : Nat) : Int) = -b.num := by
        rw [← Int.natAbs_neg]
        exact Int.natAbs_of_nonneg (neg_nonneg.mpr hb.le)
      calc ((b.num.natAbs : Nat) : ℚ)
          = (((b.num.natAbs : Nat) : Int) : ℚ) := (Int.cast_natCast _).symm
        _ = ((-b.num : Int) : ℚ) := by rw [h1]
        _ = -((b.num : Int) : ℚ) := by rw [Int.cast_neg]
    push_cast
    rw [habs, mul_neg, ← neg_div_neg_eq, neg_neg, neg_neg]
  · rw [if_neg hb, Rat.mkRat_eq_div, rat_div_key a b]
    have habs : ((b.num.natAbs : Nat) : ℚ) = ((b.num : Int) : ℚ) := by
      have h1 : ((b.num.natAbs : Nat) : Int) = b.num :=
        Int.natAbs_of_nonneg (not_lt.mp hb)
      calc ((b.num.natAbs : Nat) : ℚ)
          = (((b.num.natAbs : Nat) : Int) : ℚ) := (Int.cast_natCast _).symm
        _ = ((b.num : Int) : ℚ) := by rw [h1]
    push_cast
    rw [habs]

/-! ### Facts about the grouping and sorting pipeline -/

theorem mem_firstKeys {a : String} : ∀ {l : List String}, a ∈ firstKeys l ↔ a ∈ l := by
  intro l
  induction l with
  | nil => simp [firstKeys]
  | cons k rest ih =>
    simp only [firstKeys, List.mem_cons, List.mem_filter]
    constructor
    · rintro (rfl | ⟨h, _⟩)
      · exact Or.inl rfl
      · exact Or.inr (ih.mp h)
    · rintro (rfl | h)
      · exact Or.inl rfl
      · by_cases hk : a = k
        · exact Or.inl hk
        · exact Or.inr ⟨ih.mpr h, by simp [hk]⟩

theorem firstKeys_nodup : ∀ (l : List String), (firstKeys l).Nodup := by
  intro l
  induction l with
  | nil => simp [firstKeys]
  | cons k rest ih =>
    rw [firstKeys, List.nodup_cons]
    constructor
    · intro hmem
      have h := (List.mem_filter.mp hmem).2
      simp at h
    · exact ih.filter _

theorem mem_docGroup {l : List MatchRec} {d : String} {m : MatchRec} :
    m ∈ docGroup l d ↔ m ∈ l ∧ m.document_id = d := by
  unfold docGroup
  rw [List.mem_insertionSort, List.mem_filter]
  simp

theorem docGroup_sorted (l : List MatchRec) (d : String) :
    (docGroup l d).Pairwise chunkIdxRel :=
  List.sorted_insertionSort _ _

theorem le_foldlMaxSim (l : List MatchRec) (a : ℚ) :
    a ≤ l.foldl (fun b x => max b x.similarity) a := by
  induction l generalizing a with
  | nil => simp
  | cons x xs ih => exact le_trans (le_max_left _ _) (ih (max a x.similarity))

theorem mem_le_foldlMaxSim {x : MatchRec} {l : List MatchRec} (a : ℚ) (hx : x ∈ l) :
    x.similarity ≤ l.foldl (fun b y => max b y.similarity) a := by
  induction l generalizing a with
  | nil => cases hx
  | cons y ys ih =>
    rcases List.mem_cons.mp hx with rfl | hx'
    · exact le_trans (le_max_right _ _) (le_foldlMaxSim ys (max a x.similarity))
    · exact ih (max a y.similarity) hx'

theorem foldlMaxSim_cases (l : List MatchRec) (a : ℚ) :
    l.foldl (fun b x => max b x.similarity) a = a ∨
      ∃ x ∈ l, l.foldl (fun b y => max b y.similarity) a = x.similarity := by
  induction l generalizing a with
  | nil => exact Or.inl rfl
  | cons x xs ih =>
    rcases ih (max a x.similarity) with h | ⟨y, hy, h⟩
    · rcases max_cases a x.similarity with ⟨he, _⟩ | ⟨he, _⟩
      · exact Or.inl (by rw [List.foldl_cons, h, he])
      · exact Or.inr ⟨x, List.mem_cons_self x xs, by rw [List.foldl_cons, h, he]⟩
    · exact Or.inr ⟨y, List.mem_cons_of_mem x hy, by rw [List.foldl_cons, h]⟩

theorem le_simMax {x : MatchRec} {l : List MatchRec} (hx : x ∈ l) :
    x.similarity ≤ simMax l := by
  cases l with
  | nil => cases hx
  | cons m ms =>
    rcases List.mem_cons.mp hx with rfl | hx'
    · exact le_foldlMaxSim ms x.similarity
    · exact mem_le_foldlMaxSim m.similarity hx'

theorem simMax_attained {l : List MatchRec} (h : l ≠ []) :
    ∃ x ∈ l, simMax l = x.similarity := by
  cases l with
  | nil => exact absurd rfl h
  | cons m ms =>
    rcases foldlMaxSim_cases ms m.similarity with he | ⟨y, hy, he⟩
    · exact ⟨m, List.mem_cons_self m ms, he⟩
    · exact ⟨y, List.mem_cons_of_mem m hy, he⟩

theorem flatten_filter_doc (l : List MatchRec) (d : String) :
    ∀ (ids : List String), d ∈ ids → ids.Nodup →
      ((ids.map (docGroup l)).flatten).filter (fun m => m.document_id == d) = docGroup l d := by
  intro ids
  induction ids with
  | nil => intro hd; cases hd
  | cons k rest ih =>
    intro hd hnd
    simp only [List.map_cons, List.flatten_cons, List.filter_append]
    rcases List.mem_cons.mp hd with rfl | hdr
    · have h1 : (docGroup l d).filter (fun m => m.document_id == d) = docGroup l d :=
        List.filter_eq_self.mpr (fun m hm => by
          simp [(mem_docGroup.mp hm).2])
      have h2 : ((rest.map (docGroup l)).flatten).filter
          (fun m => m.document_id == d) = [] := by
        refine List.filter_eq_nil_iff.mpr (fun m hm => ?_)
        rcases List.mem_flatten.mp hm with ⟨blk, hblk, hmb⟩
        rcases List.mem_map.mp hblk with ⟨e, he, rfl⟩
        have : m.document_id = e := (mem_docGroup.mp hmb).2
        have hne : e ≠ d := fun hcd => (List.nodup_cons.mp hnd).1 (hcd ▸ he)
        simp [this, hne]
      rw [h1, h2, List.append_nil]
    · have hkd : k ≠ d := fun h => (List.nodup_cons.mp hnd).1 (h ▸ hdr)
      have h1 : (docGroup l k).filter (fun m => m.document_id == d) = [] := by
        refine List.filter_eq_nil_iff.mpr (fun m hm => ?_)
        have : m.document_id = k := (mem_docGroup.mp hm).2
        simp [this, hkd]
      rw [h1, List.nil_append]
      exact ih hdr (List.nodup_cons.mp hnd).2

/-- Every element of the final result list lies in the filtered match
list, and conversely: grouping and sorting lose nothing. -/
theorem mem_sortResultsOptimally {matchList : List MatchRec} {query : String} {m : MatchRec} :
    m ∈ sortResultsOptimally matchList query ↔ m ∈ filterByTextRelevance matchList query := by
  unfold sortResultsOptimally
  by_cases h : matchList = []
  · subst h
    simp [filterByTextRelevance]
  · simp only [if_neg h]
    constructor
    · intro hm
      rcases List.mem_flatten.mp hm with ⟨blk, hblk, hmb⟩
      rcases List.mem_map.mp hblk with ⟨d, _, rfl⟩
      exact (mem_docGroup.mp hmb).1
    · intro hm
      have hdoc : m.document_id ∈
          List.insertionSort (docSimRel (docSim (filterByTextRelevance matchList query)))
            (docKeys (filterByTextRelevance matchList query)) := by
        rw [List.mem_insertionSort]
        exact mem_firstKeys.mpr (List.mem_map_of_mem _ hm)
      exact List.mem_flatten.mpr
        ⟨docGroup (filterByTextRelevance matchList query) m.document_id,
          List.mem_map_of_mem _ hdoc, mem_docGroup.mpr ⟨hm, rfl⟩⟩

/-- The central ordering fact: the final result list is pairwise ordered
by descending document-level maximum similarity, and entries of one
document are pairwise ordered by ascending chunk index. -/
theorem sortResultsOptimally_pairwise (matchList : List MatchRec) (query : String) :
    (sortResultsOptimally matchList query).Pairwise (fun a b =>
      docMaxSim (sortResultsOptimally matchList query) b.document_id ≤
        docMaxSim (sortResultsOptimally matchList query) a.document_id ∧
      (a.document_id = b.document_id → a.chunk_index ≤ b.chunk_index)) := by
  by_cases h : matchList = []
  · subst h
    simp [sortResultsOptimally]
  · have hout : sortResultsOptimally matchList query =
        ((List.insertionSort (docSimRel (docSim (filterByTextRelevance matchList query)))
          (docKeys (filterByTextRelevance matchList query))).map
            (docGroup (filterByTextRelevance matchList query))).flatten := by
      unfold sortResultsOptimally
      rw [if_neg h]
    set filtered := filterByTextRelevance matchList query with hfiltered
    set ids := List.insertionSort (docSimRel (docSim filtered)) (docKeys filtered) with hids
    have hnodup : ids.Nodup :=
      (List.perm_insertionSort _ _).nodup_iff.mpr (firstKeys_nodup _)
    have hsorted : ids.Pairwise (docSimRel (docSim filtered)) :=
      List.sorted_insertionSort _ _
    have hbridge : ∀ d ∈ ids, docMaxSim ((ids.map (docGroup filtered)).flatten) d =
        docSim filtered d := by
      intro d hd
      unfold docMaxSim docSim
      rw [flatten_filter_doc filtered d ids hd hnodup]
    rw [hout]
    refine List.pairwise_flatten.mpr ⟨?_, ?_⟩
    · intro blk hblk
      rcases List.mem_map.mp hblk with ⟨d, hd, rfl⟩
      refine (docGroup_sorted filtered d).imp_of_mem ?_
      intro a b ha hb hr
      have hda : a.document_id = d := (mem_docGroup.mp ha).2
      have hdb : b.document_id = d := (mem_docGroup.mp hb).2
      exact ⟨le_of_eq (by rw [hda, hdb]), fun _ => hr⟩
    · rw [List.pairwise_map]
      have hcomb := hsorted.and hnodup
      refine hcomb.imp_of_mem ?_
      intro d e hd he hr x hx y hy
      have hdx : x.document_id = d := (mem_docGroup.mp hx).2
      have hdy : y.document_id = e := (mem_docGroup.mp hy).2
      constructor
      · rw [hdx, hdy, hbridge d hd, hbridge e he]
        exact hr.1
      · intro hxy
        exact absurd (by rw [← hdx, ← hdy, hxy]) hr.2

/-- C3: in every result list returned by the search operation, if
document A's maximum similarity across its chunks (in the final list)
strictly exceeds document B's, no A-entry appears after a B-entry
(positions are monotone in descending document maximum similarity), and
within one document the retained chunks appear in ascending chunk-index
order. -/
theorem C3_monotonic_ranking (matchList : List MatchRec) (query : String)
    (i j : Nat) (hi : i < (sortResultsOptimally matchList query).length)
    (hj : j < (sortResultsOptimally matchList query).length) (hij : i ≤ j) :
    docMaxSim (sortResultsOptimally matchList query)
        (((sortResultsOptimally matchList query).get ⟨j, hj⟩).document_id) ≤
      docMaxSim (sortResultsOptimally matchList query)
        (((sortResultsOptimally matchList query).get ⟨i, hi⟩).document_id) ∧
    (((sortResultsOptimally matchList query).get ⟨i, hi⟩).document_id =
        ((sortResultsOptimally matchList query).get ⟨j, hj⟩).document_id →
      ((sortResultsOptimally matchList query).get ⟨i, hi⟩).chunk_index ≤
        ((sortResultsOptimally matchList query).get ⟨j, hj⟩).chunk_index) := by
  rcases Nat.lt_or_ge i j with hlt | hge
  · exact List.pairwise_iff_get.mp (sortResultsOptimally_pairwise matchList query)
      ⟨i, hi⟩ ⟨j, hj⟩ (Fin.mk_lt_mk.mpr hlt)
  · have heq : i = j := le_antisymm hij hge
    subst heq
    exact ⟨le_refl _, fun _ => le_refl _⟩

theorem C3_monotonic_ranking_witness :
    (0 < (sortResultsOptimally c3DemoMatches "alpha").length ∧
      1 < (sortResultsOptimally c3DemoMatches "alpha").length ∧ 0 ≤ 1) ∧
    (docMaxSim (sortResultsOptimally c3DemoMatches "alpha")
        (((sortResultsOptimally c3DemoMatches "alpha").get
          ⟨1, by decide⟩).document_id) ≤
      docMaxSim (sortResultsOptimally c3DemoMatches "alpha")
        (((sortResultsOptimally c3DemoMatches "alpha").get
          ⟨0, by decide⟩).document_id) ∧
    (((sortResultsOptimally c3DemoMatches "alpha").get ⟨0, by decide⟩).document_id =
        ((sortResultsOptimally c3DemoMatches "alpha").get ⟨1, by decide⟩).document_id →
      ((sortResultsOptimally c3DemoMatches "alpha").get ⟨0, by decide⟩).chunk_index ≤
        ((sortResultsOptimally c3DemoMatches "alpha").get ⟨1, by decide⟩).chunk_index)) :=
  ⟨⟨by decide, by decide, by decide⟩,
    C3_monotonic_ranking c3DemoMatches "alpha" 0 1 (by decide) (by decide) (by decide)⟩

/-! ### C6: the lexical relevance pass -/

theorem any_iff_lexCount_pos {qws : List String} {c : String} :
    qws.any (fun w => strContainsB c w) = true ↔ 0 < lexCount qws c := by
  unfold lexCount
  constructor
  · intro h
    rcases List.any_eq_true.mp h with ⟨w, hw, hc⟩
    have hmem : w ∈ qws.filter (fun w => strContainsB c w) := List.mem_filter.mpr ⟨hw, hc⟩
    exact List.length_pos.mpr (fun he => by rw [he] at hmem; cases hmem)
  · intro h
    have hne : qws.filter (fun w => strContainsB c w) ≠ [] :=
      fun he => by rw [he] at h; cases h
    rcases List.exists_mem_of_ne_nil _ hne with ⟨w, hw⟩
    rcases List.mem_filter.mp hw with ⟨hwq, hwc⟩
    exact List.any_eq_true.mpr ⟨w, hwq, hwc⟩

theorem assignScore_lex {qws : List String} {m : MatchRec}
    (h : qws.any (fun w => strContainsB (pyLower m.full_chunk) w) = true) :
    assignScore qws m =
      some (setScore m (ratDiv (lexCount qws (pyLower m.full_chunk) : ℚ) (qws.length : ℚ))) := by
  unfold assignScore setScore
  simp only [h, if_true]

theorem assignScore_highSim {qws : List String} {m : MatchRec}
    (h1 : qws.any (fun w => strContainsB (pyLower m.full_chunk) w) = false)
    (h2 : m.similarity > mkRat 4 5) :
    assignScore qws m = some (setScore m (mkRat 1 10)) := by
  unfold assignScore setScore
  simp only [h1, Bool.false_eq_true, if_false, h2, if_true]

theorem assignScore_inv {qws : List String} {x m' : MatchRec}
    (h : assignScore qws x = some m') :
    (∃ s, m' = setScore x s) ∧
      (qws.any (fun w => strContainsB (pyLower x.full_chunk) w) = true ∨
        x.similarity > mkRat 4 5) := by
  unfold assignScore at h
  unfold setScore
  by_cases h1 : qws.any (fun w => strContainsB (pyLower x.full_chunk) w)
  · simp only [h1, if_true, Option.some_inj] at h
    exact ⟨⟨_, h.symm⟩, Or.inl h1⟩
  · simp only [h1, Bool.false_eq_true, if_false] at h
    by_cases h2 : x.similarity > mkRat 4 5
    · simp only [h2, if_true, Option.some_inj] at h
      exact ⟨⟨_, h.symm⟩, Or.inr h2⟩
    · simp only [h2, if_false] at h
      cases h

theorem queryWords_empty_string : queryWords "" = [] := by decide

theorem mem_filterByTextRelevance {matchList : List MatchRec} {query : String}
    {m' : MatchRec} (hq : queryWords query ≠ []) :
    m' ∈ filterByTextRelevance matchList query ↔
      ∃ m ∈ matchList, assignScore (queryWords query) m = some m' := by
  have hqe : query ≠ "" := fun h => hq (by rw [h]; exact queryWords_empty_string)
  by_cases hm : matchList = []
  · subst hm
    simp [filterByTextRelevance]
  · unfold filterByTextRelevance
    rw [if_neg (not_or.mpr ⟨hqe, hm⟩), if_neg hq, List.mem_insertionSort,
      List.mem_filterMap]

/-- C6: with at least one usable query word, a gateway chunk is retained
in the search results iff it contains a query word as a case-insensitive
substring or its similarity exceeds 0.8; lexically matching chunks get
`text_relevance_score = matchedWordCount / totalQueryWords` and chunks
retained only through the high-similarity exception get the fixed score
0.1. -/
theorem C6_lexical_filter (matchList : List MatchRec) (query : String) (m : MatchRec)
    (hm : m ∈ matchList) (hnone : ∀ x ∈ matchList, x.text_relevance_score = none)
    (hq : queryWords query ≠ []) :
    ((∃ s, setScore m s ∈ sortResultsOptimally matchList query) ↔
      (0 < lexCount (queryWords query) (pyLower m.full_chunk) ∨
        m.similarity > mkRat 4 5)) ∧
    (0 < lexCount (queryWords query) (pyLower m.full_chunk) →
      setScore m ((lexCount (queryWords query) (pyLower m.full_chunk) : ℚ) /
          ((queryWords query).length : ℚ)) ∈ sortResultsOptimally matchList query) ∧
    (lexCount (queryWords query) (pyLower m.full_chunk) = 0 → m.similarity > mkRat 4 5 →
      setScore m (mkRat 1 10) ∈ sortResultsOptimally matchList query) := by
  have hlex : 0 < lexCount (queryWords query) (pyLower m.full_chunk) →
      setScore m ((lexCount (queryWords query) (pyLower m.full_chunk) : ℚ) /
        ((queryWords query).length : ℚ)) ∈ sortResultsOptimally matchList query := by
    intro hpos
    rw [mem_sortResultsOptimally, mem_filterByTextRelevance hq]
    refine ⟨m, hm, ?_⟩
    rw [assignScore_lex (any_iff_lexCount_pos.mpr hpos), ratDiv_eq_div]
  have hhigh : lexCount (queryWords query) (pyLower m.full_chunk) = 0 →
      m.similarity > mkRat 4 5 →
      setScore m (mkRat 1 10) ∈ sortResultsOptimally matchList query := by
    intro hz hsim
    rw [mem_sortResultsOptimally, mem_filterByTextRelevance hq]
    refine ⟨m, hm, ?_⟩
    have hfalse : (queryWords query).any
        (fun w => strContainsB (pyLower m.full_chunk) w) = false := by
      rcases Bool.eq_false_or_eq_true ((queryWords query).any
        (fun w => strContainsB (pyLower m.full_chunk) w)) with h | h
      · exact absurd (any_iff_lexCount_pos.mp h) (by omega)
      · exact h
    exact assignScore_highSim hfalse hsim
  refine ⟨⟨?_, ?_⟩, hlex, hhigh⟩
  · rintro ⟨s, hs⟩
    rw [mem_sortResultsOptimally, mem_filterByTextRelevance hq] at hs
    rcases hs with ⟨x, hx, hass⟩
    rcases assignScore_inv hass with ⟨⟨s2, hseq⟩, hcond⟩
    have hxm : x = m := by
      have h1 : x.text_relevance_score = none := hnone x hx
      have h2 : m.text_relevance_score = none := hnone m hm
      unfold setScore at hseq
      obtain ⟨xd, xf, xs, xc, xt⟩ := x
      obtain ⟨md, mf, ms, mc, mt⟩ := m
      simp only [MatchRec.mk.injEq] at hseq ⊢
      simp only at h1 h2
      exact ⟨hseq.1.symm, hseq.2.1.symm, hseq.2.2.1.symm, hseq.2.2.2.1.symm, by rw [h1, h2]⟩
    subst hxm
    rcases hcond with h | h
    · exact Or.inl (any_iff_lexCount_pos.mp h)
    · exact Or.inr h
  · rintro (h | h)
    · exact ⟨_, hlex h⟩
    · by_cases hz : lexCount (queryWords query) (pyLower m.full_chunk) = 0
      · exact ⟨_, hhigh hz h⟩
      · exact ⟨_, hlex (Nat.pos_of_ne_zero hz)⟩

theorem C6_lexical_filter_witness :
    (c6DemoMatch ∈ [c6DemoMatch] ∧
      (∀ x ∈ [c6DemoMatch], x.text_relevance_score = none) ∧
      queryWords "hello" ≠ []) ∧
    (((∃ s, setScore c6DemoMatch s ∈ sortResultsOptimally [c6DemoMatch] "hello") ↔
      (0 < lexCount (queryWords "hello") (pyLower c6DemoMatch.full_chunk) ∨
        c6DemoMatch.similarity > mkRat 4 5)) ∧
    (0 < lexCount (queryWords "hello") (pyLower c6DemoMatch.full_chunk) →
      setScore c6DemoMatch
          ((lexCount (queryWords "hello") (pyLower c6DemoMatch.full_chunk) : ℚ) /
            ((queryWords "hello").length : ℚ)) ∈
        sortResultsOptimally [c6DemoMatch] "hello") ∧
    (lexCount (queryWords "hello") (pyLower c6DemoMatch.full_chunk) = 0 →
      c6DemoMatch.similarity > mkRat 4 5 →
      setScore c6DemoMatch (mkRat 1 10) ∈ sortResultsOptimally [c6DemoMatch] "hello")) :=
  ⟨⟨by decide, by decide, by decide⟩,
    C6_lexical_filter [c6DemoMatch] "hello" c6DemoMatch (by decide) (by decide) (by decide)⟩

/-! ### C5: what the gateway is asked for -/

/-- C5 is refuted at `limit = 1`: both entry points ask the vector
gateway for exactly `limit` chunk hits, not strictly more (no over-fetch
factor). -/
theorem C5_counterexample :
    (toolGatewayQuery 1 [] []).limit = 1 ∧
    ¬ (1 < (toolGatewayQuery 1 [] []).limit) ∧
    (interactorGatewayQuery 1 (mkRat 7 10) "" []).limit = 1 ∧
    ¬ (1 < (interactorGatewayQuery 1 (mkRat 7 10) "" []).limit) :=
  ⟨rfl, by decide, rfl, by decide⟩

/-- C5 (amended): the vector gateway is asked for exactly `limit` raw
chunk hits (over-fetch factor 1, not 3-5); the tool uses a hard-coded
threshold of 0.8 while the interactor passes the caller's threshold;
document-id and document-type filters are pushed down as a conjunctive
`must` predicate, and no other condition is ever pushed. -/
theorem C5_gateway_query (limit : Nat) (threshold : ℚ) (document_id : String)
    (document_ids document_types : List String) :
    (toolGatewayQuery limit document_ids document_types).limit = limit ∧
    (toolGatewayQuery limit document_ids document_types).similarity_threshold = mkRat 4 5 ∧
    (interactorGatewayQuery limit threshold document_id document_types).limit = limit ∧
    (interactorGatewayQuery limit threshold document_id document_types).similarity_threshold
      = threshold ∧
    (document_ids ≠ [] →
      ∃ f, (toolGatewayQuery limit document_ids document_types).filters = some f ∧
        FieldConditionRec.mk "document_id" (.anyOf document_ids) ∈ f.must) ∧
    (document_types ≠ [] →
      ∃ f, (toolGatewayQuery limit document_ids document_types).filters = some f ∧
        FieldConditionRec.mk "document_type" (.anyOf document_types) ∈ f.must) ∧
    (∀ f, (toolGatewayQuery limit document_ids document_types).filters = some f →
      ∀ c ∈ f.must, c = FieldConditionRec.mk "document_id" (.anyOf document_ids) ∨
        c = FieldConditionRec.mk "document_type" (.anyOf document_types)) ∧
    (document_ids = [] → document_types = [] →
      (toolGatewayQuery limit document_ids document_types).filters = none) := by
  refine ⟨rfl, rfl, rfl, rfl, ?_, ?_, ?_, ?_⟩
  · intro h1
    by_cases h2 : document_types = [] <;>
      simp [toolGatewayQuery, toolFilters, h1, h2]
  · intro h2
    by_cases h1 : document_ids = [] <;>
      simp [toolGatewayQuery, toolFilters, h1, h2]
  · intro f hf c hc
    by_cases h1 : document_ids = []
    · by_cases h2 : document_types = []
      · simp [toolGatewayQuery, toolFilters, h1, h2] at hf
      · simp [toolGatewayQuery, toolFilters, h1, h2] at hf
        subst hf
        simp only [List.mem_cons, List.not_mem_nil, or_false] at hc
        exact Or.inr hc
    · by_cases h2 : document_types = []
      · simp [toolGatewayQuery, toolFilters, h1, h2] at hf
        subst hf
        simp only [List.mem_cons, List.not_mem_nil, or_false] at hc
        exact Or.inl hc
      · simp [toolGatewayQuery, toolFilters, h1, h2] at hf
        subst hf
        simp only [List.mem_cons, List.not_mem_nil, or_false] at hc
        rcases hc with hc | hc
        · exact Or.inl hc
        · exact Or.inr hc
  · intro h1 h2
    simp [toolGatewayQuery, toolFilters, h1, h2]

theorem C5_gateway_query_witness :
    (toolGatewayQuery 2 ["a"] ["CONTRACT"]).limit = 2 ∧
    (∃ f, (toolGatewayQuery 2 ["a"] ["CONTRACT"]).filters = some f ∧
      FieldConditionRec.mk "document_id" (.anyOf ["a"]) ∈ f.must) ∧
    (∃ f, (toolGatewayQuery 2 ["a"] ["CONTRACT"]).filters = some f ∧
      FieldConditionRec.mk "document_type" (.anyOf ["CONTRACT"]) ∈ f.must) :=
  ⟨(C5_gateway_query 2 (mkRat 7 10) "" ["a"] ["CONTRACT"]).1,
    (C5_gateway_query 2 (mkRat 7 10) "" ["a"] ["CONTRACT"]).2.2.2.2.1 (by decide),
    (C5_gateway_query 2 (mkRat 7 10) "" ["a"] ["CONTRACT"]).2.2.2.2.2.1 (by decide)⟩

/-! ### C4: excerpt presentation -/

theorem strStartsList_self_append (p rest : List Char) :
    strStartsList p (p ++ rest) = true := by
  induction p with
  | nil => rfl
  | cons a ps ih => simp [strStartsList, ih]

theorem strSubList_append (x pat y : List Char) :
    strSubList pat (x ++ pat ++ y) = true := by
  induction x with
  | nil =>
    simp only [List.nil_append]
    cases hpy : pat ++ y with
    | nil =>
      rcases List.append_eq_nil.mp hpy with ⟨hp, _⟩
      rw [hp]
      rfl
    | cons c ss =>
      have hexp : strSubList pat (c :: ss) =
          (strStartsList pat (c :: ss) || strSubList pat ss) := rfl
      rw [hexp, ← hpy, strStartsList_self_append]
      simp
  | cons b xs ih =>
    have hexp : strSubList pat (b :: (xs ++ pat ++ y)) =
        (strStartsList pat (b :: (xs ++ pat ++ y)) || strSubList pat (xs ++ pat ++ y)) := rfl
    simp only [List.cons_append, List.append_assoc] at hexp ⊢
    rw [hexp]
    simp only [List.append_assoc] at ih
    rw [ih]
    simp

theorem strContainsB_parts (s pat : String) (x y : List Char)
    (h : s.data = x ++ pat.data ++ y) : strContainsB s pat = true := by
  unfold strContainsB
  rw [h]
  exact strSubList_append x pat.data y

theorem chunksContent_mem {cs : List ChunkRec} {c : ChunkRec} (hc : c ∈ cs) :
    ∃ k : Nat, ("Chunk " ++ toString (k + 1) ++ " (score: " ++ fmt3 c.score ++ "): "
      ++ c.content) ∈ chunksContent cs := by
  rcases List.mem_iff_getElem.mp hc with ⟨i, hi, hgi⟩
  refine ⟨i, ?_⟩
  unfold chunksContent
  have hlen : i < cs.enum.length := by
    rw [List.enum_length]
    exact hi
  refine List.mem_map.mpr ⟨cs.enum.get ⟨i, hlen⟩, List.get_mem _ _ hlen, ?_⟩
  have henum : cs.enum.get ⟨i, hlen⟩ = (i, c) := by
    rw [List.get_eq_getElem, List.getElem_enum, hgi]
  rw [henum]

set_option maxRecDepth 10000 in
/-- C4 is refuted on a document whose retained chunks have indices
[2, 3, 7]: the presented excerpt contains each chunk's content in its
own line (ordered by score, so index 7 first), and the contents of
chunks 2 and 3 are never directly concatenated, contrary to the claimed
contiguous merge. -/
theorem C4_counterexample :
    strContainsB c4ResponseText "AAA" = true ∧
    strContainsB c4ResponseText "BBB" = true ∧
    strContainsB c4ResponseText "CCC" = true ∧
    strContainsB c4ResponseText ("AAA" ++ "BBB") = false ∧
    strContainsB c4ResponseText ("BBB" ++ "CCC") = false := by decide

/-- C4 (amended): the per-document excerpt lists each retained chunk on
its own "Chunk k (score: s): content" line, ordered by similarity score
descending (a permutation of the retained chunks), not merged by chunk
index and with no gap marker. -/
theorem C4_score_order (cs : List ChunkRec) (c : ChunkRec) (hc : c ∈ cs) :
    (sortChunksByScore cs).Perm cs ∧
    ((sortChunksByScore cs).map (fun x => x.score)).Pairwise (fun a b => b ≤ a) ∧
    (chunksContent (sortChunksByScore cs)).length = cs.length ∧
    ∃ line ∈ chunksContent (sortChunksByScore cs),
      strContainsB line c.content = true ∧ strContainsB line (fmt3 c.score) = true := by
  refine ⟨List.perm_insertionSort _ _, ?_, ?_, ?_⟩
  · have hs : (sortChunksByScore cs).Pairwise chunkScoreRel := List.sorted_insertionSort _ _
    exact List.pairwise_map.mpr (hs.imp (fun h => h))
  · rw [chunksContent, List.length_map, List.enum_length]
    exact (List.perm_insertionSort _ _).length_eq
  · have hcs : c ∈ sortChunksByScore cs := by
      rw [sortChunksByScore, List.mem_insertionSort]
      exact hc
    rcases chunksContent_mem hcs with ⟨k, hline⟩
    refine ⟨_, hline, ?_, ?_⟩
    · refine strContainsB_parts _ _
        ("Chunk " ++ toString (k + 1) ++ " (score: " ++ fmt3 c.score ++ "): ").data [] ?_
      simp [String.data_append, List.append_assoc]
    · refine strContainsB_parts _ _
        ("Chunk " ++ toString (k + 1) ++ " (score: ").data ("): " ++ c.content).data ?_
      simp [String.data_append, List.append_assoc]

theorem C4_score_order_witness :
    (⟨"AAA", mkRat 17 20, 2⟩ : ChunkRec) ∈ c4DemoChunks ∧
    ((sortChunksByScore c4DemoChunks).Perm c4DemoChunks ∧
    ((sortChunksByScore c4DemoChunks).map (fun x => x.score)).Pairwise (fun a b => b ≤ a) ∧
    (chunksContent (sortChunksByScore c4DemoChunks)).length = c4DemoChunks.length ∧
    ∃ line ∈ chunksContent (sortChunksByScore c4DemoChunks),
      strContainsB line (ChunkRec.content ⟨"AAA", mkRat 17 20, 2⟩) = true ∧
      strContainsB line (fmt3 (ChunkRec.score ⟨"AAA", mkRat 17 20, 2⟩)) = true) :=
  ⟨by decide, C4_score_order c4DemoChunks ⟨"AAA", mkRat 17 20, 2⟩ (by decide)⟩

/-! ### C8: tool-output truncation -/

/-- C8: a tool output longer than the 8,000-character threshold is cut
to the threshold and visibly suffixed with the truncation marker — the
truncated output's length is exactly threshold + marker length and it
appears verbatim inside the tool-role history message; outputs at or
below the threshold are inserted unmodified. -/
theorem C8_truncation (s : String) :
    (8000 < s.length →
      truncateToolResponse s = String.mk (s.data.take 8000) ++ truncMarker ∧
      (truncateToolResponse s).length = 8000 + truncMarker.length ∧
      truncMarker ≠ "" ∧
      strContainsB (toolMsgContentOllama (truncateToolResponse s))
        (truncateToolResponse s) = true) ∧
    (s.length ≤ 8000 → truncateToolResponse s = s) := by
  constructor
  · intro h
    have he : truncateToolResponse s = String.mk (s.data.take 8000) ++ truncMarker := by
      unfold truncateToolResponse maxToolResponseLength
      rw [if_pos h]
    refine ⟨he, ?_, by decide, ?_⟩
    · rw [he, String.length_append, String.length_mk, List.length_take]
      have hd : s.data.length = s.length := rfl
      have h8 : min 8000 s.data.length = 8000 := by omega
      rw [h8]
    · apply strContainsB_parts _ _ ("TOOL OUTPUT - USE ONLY THIS INFORMATION:\n\n").data
        ("\n\nIMPORTANT: Base your answer ONLY on the information above. Do NOT add information from your training data.").data
      simp [toolMsgContentOllama, String.data_append]
  · intro h
    unfold truncateToolResponse maxToolResponseLength
    rw [if_neg (by omega)]

theorem C8_truncation_witness :
    8000 < c8DemoOutput.length ∧
    (truncateToolResponse c8DemoOutput
        = String.mk (c8DemoOutput.data.take 8000) ++ truncMarker ∧
      (truncateToolResponse c8DemoOutput).length = 8000 + truncMarker.length ∧
      truncMarker ≠ "" ∧
      strContainsB (toolMsgContentOllama (truncateToolResponse c8DemoOutput))
        (truncateToolResponse c8DemoOutput) = true) :=
  have hl : 8000 < c8DemoOutput.length := by
    rw [c8DemoOutput, String.length_mk, List.length_replicate]
    omega
  ⟨hl, (C8_truncation c8DemoOutput).1 hl⟩

/-! ### C2: the timeout apology is overwritten (code bug) -/

/-- C2 evaluated at the failing input: when the very first model call
times out, `execute` does not return the timeout apology — the
`final_content` set at line 120 is clobbered by line 202, which raises
`UnboundLocalError` (no `response` was ever bound), so the generic
error string is returned and persisted instead. -/
theorem C2_timeout_eval :
    (ollamaExecute c2Script emptyRegistry "hi" [ChatMsg.system "sys"]).content
      = genericErrorPrefixRu ++ unboundLocalMsg ∧
    (ollamaExecute c2Script emptyRegistry "hi" [ChatMsg.system "sys"]).content
      ≠ timeoutApologyRu ∧
    (ollamaExecute c2Script emptyRegistry "hi" [ChatMsg.system "sys"]).errored = true :=
  ⟨rfl, by decide, rfl⟩

/-! ### C1: loop termination on all-failing rounds -/

theorem processToolOllama_fail {reg : Registry} {r : ToolRequest}
    (h : toolInvocationFails reg r) : (processToolOllama reg r).hadSuccess = false := by
  rcases h with h | ⟨f, e, hf, he⟩
  · simp only [processToolOllama, h]
  · simp only [processToolOllama, hf, he, processToolOllamaCall]

theorem procReqsOllama_allfail {reg : Registry} {reqs : List ToolRequest}
    (hfail : ∀ r ∈ reqs, toolInvocationFails reg r) (st : OllamaLoopState) :
    (procReqsOllama reg st reqs).2 = false := by
  unfold procReqsOllama
  rw [List.any_eq_false]
  intro t ht
  rcases List.mem_map.mp ht with ⟨r, hr, hrt⟩
  rw [← hrt, processToolOllama_fail (hfail r hr)]
  simp

theorem procReqsOllamaStream_allfail {reg : Registry} {reqs : List ToolRequest}
    (hfail : ∀ r ∈ reqs, toolInvocationFails reg r) (st : StreamLoopState) :
    (procReqsOllamaStream reg st reqs).2 = false := by
  unfold procReqsOllamaStream
  rw [List.any_eq_false]
  intro t ht
  rcases List.mem_map.mp ht with ⟨r, hr, hrt⟩
  rw [← hrt, processToolOllama_fail (hfail r hr)]
  simp

theorem ollamaRounds_allfail_step (script : Nat → LlmTurn) (reg : Registry)
    (fuel : Nat) (st : OllamaLoopState) (c : String) (reqs : List ToolRequest)
    (hs : script (st.iterations + 1) = .reply c reqs) (hne : reqs ≠ [])
    (hfail : ∀ r ∈ reqs, toolInvocationFails reg r) :
    (ollamaRounds script reg (fuel+1) st).iterations = st.iterations + 1 ∧
    (ollamaRounds script reg (fuel+1) st).lastResp = some (c, reqs) := by
  simp only [ollamaRounds]
  rw [hs]
  simp only [if_neg hne]
  rw [if_neg (by rw [procReqsOllama_allfail hfail]; exact Bool.false_ne_true)]
  constructor <;> rfl

theorem ollamaStreamRounds_allfail_step (script : Nat → LlmStreamTurn) (reg : Registry)
    (fuel : Nat) (st : StreamLoopState) (c : String) (reqs : List ToolRequest)
    (hs : script (st.iterations + 1) = .streamed c reqs) (hne : reqs ≠ [])
    (hfail : ∀ r ∈ reqs, toolInvocationFails reg r) :
    (ollamaStreamRounds script reg (fuel+1) st).iterations = st.iterations + 1 := by
  simp only [ollamaStreamRounds]
  rw [hs]
  simp only [if_pos hne]
  rw [if_neg (by rw [procReqsOllamaStream_allfail hfail]; exact Bool.false_ne_true)]
  rfl

theorem openaiStreamRounds_cap (script : Nat → OpenAIStreamTurn) (reg : Registry) :
    ∀ (fuel : Nat) (st : OpenAIStreamState),
      st.acc = "" →
      (∀ i, st.iterations < i → i ≤ st.iterations + fuel →
        ∃ c reqs, script i = .streamed c reqs ∧ reqs ≠ []) →
      ∃ st2, openaiStreamRounds script reg fuel st = .finished st2 ∧
        st2.iterations = st.iterations + fuel ∧ st2.acc = "" := by
  intro fuel
  induction fuel with
  | zero =>
    intro st hacc _
    exact ⟨st, rfl, by omega, hacc⟩
  | succ n ih =>
    intro st hacc hsc
    rcases hsc (st.iterations + 1) (by omega) (by omega) with ⟨c, reqs, hs, hne⟩
    have hstep : openaiStreamRounds script reg (n+1) st =
        openaiStreamRounds script reg n
          ⟨st.history ++ [.assistant (st.acc ++ c) reqs]
              ++ (reqs.map (processToolOpenAIStream reg)).filterMap (fun t => t.historyMsg),
            st.toolCalls ++ (reqs.map (processToolOpenAIStream reg)).map (fun t => t.record),
            st.sources
              ++ ((reqs.map (processToolOpenAIStream reg)).map (fun t => t.newSources)).flatten,
            "", st.iterations + 1⟩ := by
      simp only [openaiStreamRounds]
      rw [hs]
      simp only [if_pos hne]
    rw [hstep]
    have hsc2 : ∀ i, st.iterations + 1 < i → i ≤ st.iterations + 1 + n →
        ∃ c2 reqs2, script i = .streamed c2 reqs2 ∧ reqs2 ≠ [] :=
      fun i h1 h2 => hsc i (by omega) (by omega)
    rcases ih
        ⟨st.history ++ [.assistant (st.acc ++ c) reqs]
            ++ (reqs.map (processToolOpenAIStream reg)).filterMap (fun t => t.historyMsg),
          st.toolCalls ++ (reqs.map (processToolOpenAIStream reg)).map (fun t => t.record),
          st.sources
            ++ ((reqs.map (processToolOpenAIStream reg)).map (fun t => t.newSources)).flatten,
          "", st.iterations + 1⟩ rfl hsc2
      with ⟨st2, he, hi, ha⟩
    refine ⟨st2, he, ?_, ha⟩
    have hi2 : st2.iterations = st.iterations + 1 + n := hi
    omega

/-- C1 is refuted in the OpenAI streaming variant: with a model that
requests one unknown (hence failing) tool every round, the loop runs all
5 rounds to the iteration cap instead of stopping after round 1. -/
theorem C1_counterexample :
    (openaiStreamExecute c1FailScript (.ok "done") emptyRegistry "q" []).iterations = 5 ∧
    ¬ ((openaiStreamExecute c1FailScript (.ok "done") emptyRegistry "q" []).iterations = 1) :=
  ⟨rfl, by decide⟩

/-- C1 (amended): an all-failing round terminates the loop after exactly
1 round in the Ollama non-streaming and streaming variants (the OpenAI
non-streaming variant performs a single tool round by construction); the
OpenAI streaming variant never checks tool success and iterates to the
cap of 5 whenever the model keeps requesting tools, failing or not. -/
theorem C1_per_variant_termination :
    (∀ (script : Nat → LlmTurn) (reg : Registry) (userMsg : String)
      (initHistory : List ChatMsg) (c : String) (reqs : List ToolRequest),
      script 1 = .reply c reqs → reqs ≠ [] →
      (∀ r ∈ reqs, toolInvocationFails reg r) →
      (ollamaExecute script reg userMsg initHistory).iterations = 1) ∧
    (∀ (script : Nat → LlmStreamTurn) (reg : Registry) (userMsg : String)
      (initHistory : List ChatMsg) (c : String) (reqs : List ToolRequest),
      script 1 = .streamed c reqs → reqs ≠ [] →
      (∀ r ∈ reqs, toolInvocationFails reg r) →
      (ollamaStreamExecute script reg userMsg initHistory).iterations = 1) ∧
    (∀ (script : Nat → OpenAIStreamTurn) (finalCall : Except String String)
      (reg : Registry) (userMsg : String) (initHistory : List ChatMsg),
      (∀ i, 1 ≤ i → i ≤ 5 → ∃ c reqs, script i = .streamed c reqs ∧ reqs ≠ [] ∧
        ∀ r ∈ reqs, toolInvocationFails reg r) →
      (openaiStreamExecute script finalCall reg userMsg initHistory).iterations = 5) := by
  refine ⟨?_, ?_, ?_⟩
  · intro script reg userMsg initHistory c reqs hs hne hfail
    exact (ollamaRounds_allfail_step script reg 4
      ⟨initHistory ++ [ChatMsg.user userMsg], [], [], none, 0⟩ c reqs hs hne hfail).1
  · intro script reg userMsg initHistory c reqs hs hne hfail
    exact ollamaStreamRounds_allfail_step script reg 4
      ⟨initHistory ++ [ChatMsg.user userMsg], [], [], "", none, 0⟩ c reqs hs hne hfail
  · intro script finalCall reg userMsg initHistory hsc
    unfold openaiStreamExecute
    rcases openaiStreamRounds_cap script reg 5
        ⟨initHistory ++ [.user userMsg], [], [], "", 0⟩ rfl
        (fun i h1 h2 => by
          rcases hsc i (by omega) (by simp at h2; omega) with ⟨c, reqs, ha, hb, _⟩
          exact ⟨c, reqs, ha, hb⟩)
      with ⟨st2, he, hi, ha⟩
    rw [he]
    have hi5 : st2.iterations = 5 := hi.trans rfl
    cases finalCall with
    | error e => simp [hi5, ha]
    | ok cc => simp [hi5, ha]

theorem C1_per_variant_termination_witness :
    (ollamaExecute c1OllamaFailScript emptyRegistry "q" []).iterations = 1 ∧
    (ollamaStreamExecute c1OllamaStreamFailScript emptyRegistry "q" []).iterations = 1 ∧
    (openaiStreamExecute c1FailScript (.ok "done") emptyRegistry "q" []).iterations = 5 :=
  ⟨C1_per_variant_termination.1 c1OllamaFailScript emptyRegistry "q" [] "" [⟨"nope", ""⟩]
      rfl (by decide) (fun r _ => Or.inl rfl),
    C1_per_variant_termination.2.1 c1OllamaStreamFailScript emptyRegistry "q" [] ""
      [⟨"nope", ""⟩] rfl (by decide) (fun r _ => Or.inl rfl),
    C1_per_variant_termination.2.2 c1FailScript (.ok "done") emptyRegistry "q" []
      (fun i _ _ => ⟨"", [⟨"nope", ""⟩], rfl, by decide, fun r _ => Or.inl rfl⟩)⟩

/-! ### C7: retrieval-side errors are swallowed by the tool -/

theorem searchDocumentsCore_embed_error {env : SearchGatewayEnv} {q : String} {l : Nat}
    {ids tys : List String} {e : String}
    (h : env.embed ("query: " ++ q) = .error e) :
    searchDocumentsCore env q l ids tys = .error e := by
  unfold searchDocumentsCore
  rw [h]

theorem searchDocumentsTool_error {env : SearchGatewayEnv} {q : String} {l : Nat}
    {ids tys : List String} {e : String}
    (h : searchDocumentsCore env q l ids tys = .error e) :
    searchDocumentsTool env q l ids tys =
      [PyVal.textContent "text" ("Error searching documents: " ++ e)] := by
  unfold searchDocumentsTool
  rw [h]

/-- C7 is refuted: an embedding-gateway failure inside the
`search_documents` tool does NOT surface as a failed ToolCall — the tool
catches it, and the orchestrator records success with no error. -/
theorem C7_counterexample :
    (processToolOllama c7Registry c7Req).record.success = true ∧
    (processToolOllama c7Registry c7Req).record.error = none ∧
    ¬ ((processToolOllama c7Registry c7Req).record.success = false ∧
       (processToolOllama c7Registry c7Req).record.error = some "boom") := by
  decide

/-- C7 (amended): an embedding-gateway failure while the
`search_documents` tool runs is caught inside the tool, which returns a
normal TextContent whose text is "Error searching documents: <message>";
the orchestrator therefore records the ToolCall with success=true,
error=none, the stringified error reply as output, and counts the round
as having a successful tool. -/
theorem C7_error_swallowed (env : SearchGatewayEnv) (decode : String → SearchArgsRec)
    (reg : Registry) (req : ToolRequest) (e : String)
    (hreg : reg req.name = some (searchToolFn env decode))
    (hembed : env.embed ("query: " ++ (decode req.args).query) = .error e) :
    searchDocumentsTool env (decode req.args).query (decode req.args).limit
        (decode req.args).document_ids (decode req.args).document_types
      = [PyVal.textContent "text" ("Error searching documents: " ++ e)] ∧
    (processToolOllama reg req).record.success = true ∧
    (processToolOllama reg req).record.error = none ∧
    (processToolOllama reg req).record.output =
      some (pyToString (PyVal.pyList
        [PyVal.textContent "text" ("Error searching documents: " ++ e)])) ∧
    (processToolOllama reg req).hadSuccess = true := by
  have htool := searchDocumentsTool_error
    (@searchDocumentsCore_embed_error env (decode req.args).query (decode req.args).limit
      (decode req.args).document_ids (decode req.args).document_types e hembed)
  refine ⟨htool, ?_⟩
  have hout : (searchToolFn env decode) req.args =
      .ok (.pyList [PyVal.textContent "text" ("Error searching documents: " ++ e)]) := by
    show Except.ok (PyVal.pyList (searchDocumentsTool env (decode req.args).query
        (decode req.args).limit (decode req.args).document_ids
        (decode req.args).document_types)) = _
    rw [htool]
  simp only [processToolOllama, hreg, hout, processToolOllamaCall]
  by_cases hn : req.name = "search_documents"
  · simp only [if_pos hn]
    have hext : extractSources (PyVal.pyList
        [PyVal.textContent "text" ("Error searching documents: " ++ e)]) = ([], none) := rfl
    rw [hext]
    exact ⟨rfl, rfl, rfl, rfl⟩
  · simp only [if_neg hn]
    exact ⟨trivial, trivial, trivial, trivial⟩

theorem C7_error_swallowed_witness :
    c7Registry c7Req.name = some (searchToolFn c7Env c7Decode) ∧
    c7Env.embed ("query: " ++ (c7Decode c7Req.args).query) = .error "boom" ∧
    (searchDocumentsTool c7Env (c7Decode c7Req.args).query (c7Decode c7Req.args).limit
        (c7Decode c7Req.args).document_ids (c7Decode c7Req.args).document_types
      = [PyVal.textContent "text" ("Error searching documents: " ++ "boom")] ∧
    (processToolOllama c7Registry c7Req).record.success = true ∧
    (processToolOllama c7Registry c7Req).record.error = none ∧
    (processToolOllama c7Registry c7Req).record.output =
      some (pyToString (PyVal.pyList
        [PyVal.textContent "text" ("Error searching documents: " ++ "boom")])) ∧
    (processToolOllama c7Registry c7Req).hadSuccess = true) :=
  ⟨rfl, rfl, C7_error_swallowed c7Env c7Decode c7Registry c7Req "boom" rfl rfl⟩

/-! ### C9 and C10: tool outputs are TextContent lists, so extraction
never fires and failed ToolCalls never carry outputs -/

theorem searchDocumentsCore_ok_shape {env : SearchGatewayEnv} {q : String} {l : Nat}
    {ids tys : List String} {v : List PyVal}
    (h : searchDocumentsCore env q l ids tys = .ok v) :
    ∃ t, v = [PyVal.textContent "text" t] := by
  unfold searchDocumentsCore at h
  cases he : env.embed ("query: " ++ q) with
  | error e => rw [he] at h; cases h
  | ok vec =>
    rw [he] at h
    cases hs : env.searchSimilar (toolGatewayQuery l ids tys) with
    | error e => rw [hs] at h; cases h
    | ok res =>
      rw [hs] at h
      have h2 : (if res = [] then
          (Except.ok [PyVal.textContent "text"
            ("No documents found matching query: \x27" ++ q ++ "\x27")] :
              Except String (List PyVal))
        else
          match env.getDocuments (pointKeys res) with
          | .error e => .error e
          | .ok docs =>
            .ok [PyVal.textContent "text" (formatResponse q ids tys
              (List.insertionSort relevanceRel (buildResults res docs)))]) = .ok v := h
      by_cases hres : res = []
      · rw [if_pos hres] at h2
        injection h2 with h3
        exact ⟨_, h3.symm⟩
      · rw [if_neg hres] at h2
        cases hd : env.getDocuments (pointKeys res) with
        | error e => rw [hd] at h2; cases h2
        | ok docs =>
          rw [hd] at h2
          injection h2 with h3
          exact ⟨_, h3.symm⟩

theorem searchDocumentsTool_shape (env : SearchGatewayEnv) (q : String) (l : Nat)
    (ids tys : List String) :
    ∀ x ∈ searchDocumentsTool env q l ids tys, ∃ ty t, x = PyVal.textContent ty t := by
  unfold searchDocumentsTool
  cases h : searchDocumentsCore env q l ids tys with
  | error e =>
    intro x hx
    simp only [List.mem_singleton] at hx
    exact ⟨_, _, hx⟩
  | ok v =>
    rcases searchDocumentsCore_ok_shape h with ⟨t, rfl⟩
    intro x hx
    simp only [List.mem_singleton] at hx
    exact ⟨_, _, hx⟩

theorem extractResults_textContent :
    ∀ (rs : List PyVal), (∀ x ∈ rs, ∃ ty t, x = .textContent ty t) →
      ∀ acc, extractResults acc rs = (acc, none) := by
  intro rs
  induction rs with
  | nil => intro _ acc; rfl
  | cons r rest ih =>
    intro h acc
    rcases h r (List.mem_cons_self r rest) with ⟨ty, t, rfl⟩
    have hstep : extractResults acc (PyVal.textContent ty t :: rest)
        = extractResults acc rest := rfl
    rw [hstep]
    exact ih (fun x hx => h x (List.mem_cons_of_mem _ hx)) acc

theorem extractSources_textContent {v : List PyVal}
    (h : ∀ x ∈ v, ∃ ty t, x = .textContent ty t) :
    extractSources (.pyList v) = ([], none) :=
  extractResults_textContent v h []

theorem extractSourcesOpenAI_textContent {v : List PyVal}
    (h : ∀ x ∈ v, ∃ ty t, x = .textContent ty t) :
    extractSourcesOpenAI (.pyList v) = ([], none) := by
  cases v with
  | nil => rfl
  | cons r0 rs =>
    rcases h r0 (List.mem_cons_self r0 rs) with ⟨ty, t, rfl⟩
    rfl

theorem processToolOllama_clean {reg : Registry} (hreg : regHasSearchTool reg)
    (req : ToolRequest) :
    (processToolOllama reg req).newSources = [] ∧
      toolCallOk (processToolOllama reg req).record := by
  cases hr : reg req.name with
  | none =>
    simp only [processToolOllama, hr]
    exact ⟨trivial, fun _ => ⟨rfl, by simp⟩⟩
  | some f =>
    cases hv : f req.args with
    | error e =>
      simp only [processToolOllama, hr, hv, processToolOllamaCall]
      exact ⟨trivial, fun _ => ⟨rfl, by simp⟩⟩
    | ok v =>
      simp only [processToolOllama, hr, hv, processToolOllamaCall]
      by_cases hn : req.name = "search_documents"
      · rcases hreg with ⟨env, decode, hsd⟩
        have hf : f = searchToolFn env decode := by
          rw [hn] at hr
          rw [hr] at hsd
          injection hsd
        rw [hf] at hv
        have h4 : (Except.ok (PyVal.pyList (searchDocumentsTool env
            (decode req.args).query (decode req.args).limit (decode req.args).document_ids
            (decode req.args).document_types)) : Except String PyVal) = Except.ok v := hv
        injection h4 with h5
        rw [if_pos hn, ← h5,
          extractSources_textContent (searchDocumentsTool_shape env _ _ _ _)]
        exact ⟨rfl, fun h => Bool.noConfusion h⟩
      · rw [if_neg hn]
        exact ⟨rfl, fun h => Bool.noConfusion h⟩

theorem processToolOpenAIStream_clean {reg : Registry} (hreg : regHasSearchTool reg)
    (req : ToolRequest) :
    (processToolOpenAIStream reg req).newSources = [] ∧
      toolCallOk (processToolOpenAIStream reg req).record := by
  cases hr : reg req.name with
  | none =>
    simp only [processToolOpenAIStream, hr]
    exact ⟨trivial, fun _ => ⟨rfl, by simp⟩⟩
  | some f =>
    cases hv : f req.args with
    | error e =>
      simp only [processToolOpenAIStream, hr, hv, processToolOpenAIStreamCall]
      exact ⟨trivial, fun _ => ⟨rfl, by simp⟩⟩
    | ok v =>
      simp only [processToolOpenAIStream, hr, hv, processToolOpenAIStreamCall]
      by_cases hn : req.name = "search_documents"
      · rcases hreg with ⟨env, decode, hsd⟩
        have hf : f = searchToolFn env decode := by
          rw [hn] at hr
          rw [hr] at hsd
          injection hsd
        rw [hf] at hv
        have h4 : (Except.ok (PyVal.pyList (searchDocumentsTool env
            (decode req.args).query (decode req.args).limit (decode req.args).document_ids
            (decode req.args).document_types)) : Except String PyVal) = Except.ok v := hv
        injection h4 with h5
        rw [if_pos hn, ← h5,
          extractSourcesOpenAI_textContent (searchDocumentsTool_shape env _ _ _ _)]
        exact ⟨rfl, fun h => Bool.noConfusion h⟩
      · rw [if_neg hn]
        exact ⟨rfl, fun h => Bool.noConfusion h⟩

theorem processToolOpenAIExec_clean (reg : Registry) (req : ToolRequest) :
    (processToolOpenAIExec reg req).newSources = [] ∧
      toolCallOk (processToolOpenAIExec reg req).record := by
  cases hr : reg req.name with
  | none =>
    simp only [processToolOpenAIExec, hr]
    exact ⟨trivial, fun _ => ⟨rfl, by simp⟩⟩
  | some f =>
    cases hv : f req.args with
    | error e =>
      simp only [processToolOpenAIExec, hr, hv, processToolOpenAIExecCall]
      exact ⟨trivial, fun _ => ⟨rfl, by simp⟩⟩
    | ok v =>
      simp only [processToolOpenAIExec, hr, hv, processToolOpenAIExecCall]
      exact ⟨trivial, fun h => Bool.noConfusion h⟩

theorem flatten_map_newSources_nil {steps : List ToolStepResult}
    (h : ∀ t ∈ steps, t.newSources = []) :
    (steps.map (fun t => t.newSources)).flatten = [] := by
  induction steps with
  | nil => rfl
  | cons a l ih =>
    simp only [List.map_cons, List.flatten_cons, h a (List.mem_cons_self a l),
      List.nil_append]
    exact ih (fun t ht => h t (List.mem_cons_of_mem _ ht))

theorem procReqsOllama_clean {reg : Registry} (hreg : regHasSearchTool reg)
    (st : OllamaLoopState) (reqs : List ToolRequest)
    (hT : ∀ tc ∈ st.toolCalls, toolCallOk tc) (hS : st.sources = []) :
    (∀ tc ∈ (procReqsOllama reg st reqs).1.toolCalls, toolCallOk tc) ∧
      (procReqsOllama reg st reqs).1.sources = [] := by
  have hsteps : ∀ t ∈ reqs.map (processToolOllama reg),
      t.newSources = [] ∧ toolCallOk t.record := by
    intro t ht
    rcases List.mem_map.mp ht with ⟨r, hr, rfl⟩
    exact processToolOllama_clean hreg r
  constructor
  · intro tc htc
    have htc2 : tc ∈ st.toolCalls ++
        (reqs.map (processToolOllama reg)).map (fun t => t.record) := htc
    rcases List.mem_append.mp htc2 with h | h
    · exact hT tc h
    · rcases List.mem_map.mp h with ⟨t, ht, rfl⟩
      exact (hsteps t ht).2
  · show st.sources ++
      ((reqs.map (processToolOllama reg)).map (fun t => t.newSources)).flatten = []
    rw [hS, List.nil_append]
    exact flatten_map_newSources_nil (fun t ht => (hsteps t ht).1)

theorem procReqsOllamaStream_clean {reg : Registry} (hreg : regHasSearchTool reg)
    (st : StreamLoopState) (reqs : List ToolRequest)
    (hT : ∀ tc ∈ st.toolCalls, toolCallOk tc) (hS : st.sources = []) :
    (∀ tc ∈ (procReqsOllamaStream reg st reqs).1.toolCalls, toolCallOk tc) ∧
      (procReqsOllamaStream reg st reqs).1.sources = [] := by
  have hsteps : ∀ t ∈ reqs.map (processToolOllama reg),
      t.newSources = [] ∧ toolCallOk t.record := by
    intro t ht
    rcases List.mem_map.mp ht with ⟨r, hr, rfl⟩
    exact processToolOllama_clean hreg r
  constructor
  · intro tc htc
    have htc2 : tc ∈ st.toolCalls ++
        (reqs.map (processToolOllama reg)).map (fun t => t.record) := htc
    rcases List.mem_append.mp htc2 with h | h
    · exact hT tc h
    · rcases List.mem_map.mp h with ⟨t, ht, rfl⟩
      exact (hsteps t ht).2
  · show st.sources ++
      ((reqs.map (processToolOllama reg)).map (fun t => t.newSources)).flatten = []
    rw [hS, List.nil_append]
    exact flatten_map_newSources_nil (fun t ht => (hsteps t ht).1)

theorem ollamaRounds_clean (script : Nat → LlmTurn) {reg : Registry}
    (hreg : regHasSearchTool reg) :
    ∀ (fuel : Nat) (st : OllamaLoopState),
      (∀ tc ∈ st.toolCalls, toolCallOk tc) → st.sources = [] →
      (∀ tc ∈ (ollamaRounds script reg fuel st).toolCalls, toolCallOk tc) ∧
        (ollamaRounds script reg fuel st).sources = [] := by
  intro fuel
  induction fuel with
  | zero => intro st hT hS; exact ⟨hT, hS⟩
  | succ n ih =>
    intro st hT hS
    cases hsc : script (st.iterations + 1) with
    | timeout =>
      simp only [ollamaRounds, hsc]
      exact ⟨hT, hS⟩
    | reply c reqs =>
      simp only [ollamaRounds, hsc]
      by_cases hreqs : reqs = []
      · rw [if_pos hreqs]
        exact ⟨hT, hS⟩
      · rw [if_neg hreqs]
        have hp := procReqsOllama_clean hreg
          ⟨st.history ++ [ChatMsg.assistant c reqs], st.toolCalls, st.sources,
            some (c, reqs), st.iterations + 1⟩ reqs hT hS
        split
        · exact ih _ hp.1 hp.2
        · exact hp

theorem ollamaStreamRounds_clean (script : Nat → LlmStreamTurn) {reg : Registry}
    (hreg : regHasSearchTool reg) :
    ∀ (fuel : Nat) (st : StreamLoopState),
      (∀ tc ∈ st.toolCalls, toolCallOk tc) → st.sources = [] →
      (∀ tc ∈ (ollamaStreamRounds script reg fuel st).toolCalls, toolCallOk tc) ∧
        (ollamaStreamRounds script reg fuel st).sources = [] := by
  intro fuel
  induction fuel with
  | zero => intro st hT hS; exact ⟨hT, hS⟩
  | succ n ih =>
    intro st hT hS
    cases hsc : script (st.iterations + 1) with
    | initTimeout =>
      simp only [ollamaStreamRounds, hsc]
      exact ⟨hT, hS⟩
    | streamed c reqs =>
      simp only [ollamaStreamRounds, hsc]
      by_cases hreqs : reqs = []
      · rw [if_neg (fun h => h hreqs)]
        by_cases hc : c ≠ ""
        · rw [if_pos hc]
          exact ⟨hT, hS⟩
        · rw [if_neg hc]
          exact ⟨hT, hS⟩
      · rw [if_pos hreqs]
        have hp := procReqsOllamaStream_clean hreg
          ⟨st.history ++ [ChatMsg.assistant c reqs], st.toolCalls, st.sources,
            st.finalContent, some (c, reqs), st.iterations + 1⟩ reqs hT hS
        split
        · exact ih _ hp.1 hp.2
        · exact hp

theorem openaiStreamRounds_clean (script : Nat → OpenAIStreamTurn) {reg : Registry}
    (hreg : regHasSearchTool reg) :
    ∀ (fuel : Nat) (st : OpenAIStreamState),
      (∀ tc ∈ st.toolCalls, toolCallOk tc) → st.sources = [] →
      (∀ tc ∈ (outcomeState (openaiStreamRounds script reg fuel st)).toolCalls, toolCallOk tc) ∧
        (outcomeState (openaiStreamRounds script reg fuel st)).sources = [] := by
  intro fuel
  induction fuel with
  | zero => intro st hT hS; exact ⟨hT, hS⟩
  | succ n ih =>
    intro st hT hS
    cases hsc : script (st.iterations + 1) with
    | initFail m =>
      simp only [openaiStreamRounds, hsc]
      exact ⟨hT, hS⟩
    | streamFail m =>
      simp only [openaiStreamRounds, hsc]
      exact ⟨hT, hS⟩
    | streamed c reqs =>
      simp only [openaiStreamRounds, hsc]
      by_cases hreqs : reqs = []
      · rw [if_neg (fun h => h hreqs)]
        by_cases hacc : st.acc ++ c ≠ ""
        · rw [if_pos hacc]
          exact ⟨hT, hS⟩
        · rw [if_neg hacc]
          exact ⟨hT, hS⟩
      · rw [if_pos hreqs]
        have hsteps : ∀ t ∈ reqs.map (processToolOpenAIStream reg),
            t.newSources = [] ∧ toolCallOk t.record := by
          intro t ht
          rcases List.mem_map.mp ht with ⟨r, hr, rfl⟩
          exact processToolOpenAIStream_clean hreg r
        have hT2 : ∀ tc ∈ st.toolCalls ++
            (reqs.map (processToolOpenAIStream reg)).map (fun t => t.record),
            toolCallOk tc := by
          intro tc htc
          rcases List.mem_append.mp htc with h | h
          · exact hT tc h
          · rcases List.mem_map.mp h with ⟨t, ht, rfl⟩
            exact (hsteps t ht).2
        have hS2 : st.sources ++
            ((reqs.map (processToolOpenAIStream reg)).map (fun t => t.newSources)).flatten
              = [] := by
          rw [hS, List.nil_append]
          exact flatten_map_newSources_nil (fun t ht => (hsteps t ht).1)
        exact ih _ hT2 hS2

theorem ollamaExecute_clean {reg : Registry} (hreg : regHasSearchTool reg)
    (script : Nat → LlmTurn) (userMsg : String) (initHistory : List ChatMsg) :
    (∀ tc ∈ (ollamaExecute script reg userMsg initHistory).toolCalls, toolCallOk tc) ∧
      (ollamaExecute script reg userMsg initHistory).sources = [] :=
  ollamaRounds_clean script hreg 5 ⟨initHistory ++ [ChatMsg.user userMsg], [], [], none, 0⟩
    (fun tc htc => absurd htc (List.not_mem_nil tc)) rfl

theorem ollamaStreamExecute_clean {reg : Registry} (hreg : regHasSearchTool reg)
    (script : Nat → LlmStreamTurn) (userMsg : String) (initHistory : List ChatMsg) :
    (∀ tc ∈ (ollamaStreamExecute script reg userMsg initHistory).toolCalls, toolCallOk tc) ∧
      (ollamaStreamExecute script reg userMsg initHistory).sources = [] :=
  ollamaStreamRounds_clean script hreg 5
    ⟨initHistory ++ [ChatMsg.user userMsg], [], [], "", none, 0⟩
    (fun tc htc => absurd htc (List.not_mem_nil tc)) rfl

theorem openaiStreamExecute_clean {reg : Registry} (hreg : regHasSearchTool reg)
    (script : Nat → OpenAIStreamTurn) (finalCall : Except String String)
    (userMsg : String) (initHistory : List ChatMsg) :
    (∀ tc ∈ (openaiStreamExecute script finalCall reg userMsg initHistory).toolCalls,
        toolCallOk tc) ∧
      (openaiStreamExecute script finalCall reg userMsg initHistory).sources = [] := by
  have hst := openaiStreamRounds_clean script hreg 5
    ⟨initHistory ++ [ChatMsg.user userMsg], [], [], "", 0⟩
    (fun tc htc => absurd htc (List.not_mem_nil tc)) rfl
  unfold openaiStreamExecute
  split
  next m st heq =>
    rw [heq] at hst
    exact hst
  next st heq =>
    rw [heq] at hst
    split
    · split
      · exact hst
      · exact hst
    · exact hst

theorem openaiExecute_clean (firstC finalC : OpenAICallResult) (reg : Registry)
    (userMsg : String) (initHistory : List ChatMsg) :
    (∀ tc ∈ (openaiExecute firstC finalC reg userMsg initHistory).toolCalls, toolCallOk tc) ∧
      (openaiExecute firstC finalC reg userMsg initHistory).sources = [] := by
  have hrec : ∀ (reqs : List ToolRequest), ∀ tc ∈
      (reqs.map (processToolOpenAIExec reg)).map (fun t => t.record), toolCallOk tc := by
    intro reqs tc htc
    rcases List.mem_map.mp htc with ⟨t, ht, rfl⟩
    rcases List.mem_map.mp ht with ⟨r, hr, rfl⟩
    exact (processToolOpenAIExec_clean reg r).2
  cases firstC with
  | timeoutErr => exact ⟨fun tc htc => absurd htc (List.not_mem_nil tc), rfl⟩
  | apiErr e => exact ⟨fun tc htc => absurd htc (List.not_mem_nil tc), rfl⟩
  | reply c reqs =>
    cases reqs with
    | nil => exact ⟨fun tc htc => absurd htc (List.not_mem_nil tc), rfl⟩
    | cons r rs =>
      cases finalC with
      | timeoutErr => exact ⟨hrec (r :: rs), rfl⟩
      | apiErr e => exact ⟨hrec (r :: rs), rfl⟩
      | reply c2 reqs2 => exact ⟨hrec (r :: rs), rfl⟩

/-- C9: for every ToolCall record produced by any orchestrator run
(Ollama non-streaming, Ollama streaming, OpenAI streaming, OpenAI
non-streaming), when the registry binds "search_documents" to the real
search tool, `success = false` implies the record\x27s `output` is `none`
and its `error` is present.  In every code path a failed invocation is
recorded with `output=None` and an error string, and a successful one
with `success=True`; the only subtle path is source extraction raising
after output was set, which flips `success` but keeps the output — and
that path is unreachable because the search tool only returns
TextContent lists, on which extraction never raises. -/
theorem C9_toolcall_invariant {reg : Registry} (hreg : regHasSearchTool reg)
    (script1 : Nat → LlmTurn) (script2 : Nat → LlmStreamTurn)
    (script3 : Nat → OpenAIStreamTurn) (finalCall : Except String String)
    (firstC finalC : OpenAICallResult) (userMsg : String) (initHistory : List ChatMsg) :
    (∀ tc ∈ (ollamaExecute script1 reg userMsg initHistory).toolCalls, toolCallOk tc) ∧
      (∀ tc ∈ (ollamaStreamExecute script2 reg userMsg initHistory).toolCalls, toolCallOk tc) ∧
      (∀ tc ∈ (openaiStreamExecute script3 finalCall reg userMsg initHistory).toolCalls,
        toolCallOk tc) ∧
      (∀ tc ∈ (openaiExecute firstC finalC reg userMsg initHistory).toolCalls, toolCallOk tc) :=
  ⟨(ollamaExecute_clean hreg script1 userMsg initHistory).1,
    (ollamaStreamExecute_clean hreg script2 userMsg initHistory).1,
    (openaiStreamExecute_clean hreg script3 finalCall userMsg initHistory).1,
    (openaiExecute_clean firstC finalC reg userMsg initHistory).1⟩

theorem C9_toolcall_invariant_witness :
    regHasSearchTool c7Registry ∧
      (∀ tc ∈ (ollamaExecute c1OllamaFailScript c7Registry "q" []).toolCalls, toolCallOk tc) :=
  ⟨⟨c7Env, c7Decode, rfl⟩,
    (C9_toolcall_invariant ⟨c7Env, c7Decode, rfl⟩ c1OllamaFailScript c1OllamaStreamFailScript
      c1FailScript (Except.ok "x") OpenAICallResult.timeoutErr OpenAICallResult.timeoutErr
      "q" []).1⟩

/-- C10: for every orchestrator run in every variant, the sources list of
the final answer is empty when the registry binds "search_documents" to
the real search tool: extraction only fires on a list of dicts with a
"best_chunks" key, but the tool always returns a list of TextContent
(also on its empty and error paths), so no source is ever collected. -/
theorem C10_sources_empty {reg : Registry} (hreg : regHasSearchTool reg)
    (script1 : Nat → LlmTurn) (script2 : Nat → LlmStreamTurn)
    (script3 : Nat → OpenAIStreamTurn) (finalCall : Except String String)
    (firstC finalC : OpenAICallResult) (userMsg : String) (initHistory : List ChatMsg) :
    (ollamaExecute script1 reg userMsg initHistory).sources = [] ∧
      (ollamaStreamExecute script2 reg userMsg initHistory).sources = [] ∧
      (openaiStreamExecute script3 finalCall reg userMsg initHistory).sources = [] ∧
      (openaiExecute firstC finalC reg userMsg initHistory).sources = [] :=
  ⟨(ollamaExecute_clean hreg script1 userMsg initHistory).2,
    (ollamaStreamExecute_clean hreg script2 userMsg initHistory).2,
    (openaiStreamExecute_clean hreg script3 finalCall userMsg initHistory).2,
    (openaiExecute_clean firstC finalC reg userMsg initHistory).2⟩

theorem C10_sources_empty_witness :
    regHasSearchTool c7Registry ∧
      (ollamaExecute c1OllamaFailScript c7Registry "q" []).sources = [] :=
  ⟨⟨c7Env, c7Decode, rfl⟩,
    (C10_sources_empty ⟨c7Env, c7Decode, rfl⟩ c1OllamaFailScript c1OllamaStreamFailScript
      c1FailScript (Except.ok "x") OpenAICallResult.timeoutErr OpenAICallResult.timeoutErr
      "q" []).1⟩
